import Mathlib

/-!
# Billing notification: the billing-period calculation

A shallow embedding of `billing-notification.go` and of the parts of Go's
`time` package that its date helpers call (`time.Date`, `Time.Year`,
`Time.Month`, `Time.Day`, `Time.Format` with the layout `2006-01-02`,
`Time.In`, `time.LoadLocation`).

Modelling decisions:

* Go's `int`, `int64` and `uint64` are modelled by `Int`.  The calendar code
  of package `time` is written so that no instant a `Time` can hold overflows
  it; the conversion `uint64 (day - 1)` with `day = 0` wraps in Go and the
  wrapped sum is the integer sum `d + (day - 1)` taken here.
* `%` on a year is only ever compared with `0`, where Go's truncated
  remainder and Lean's `%` agree; `/` is only applied to non-negative
  operands, where Go's truncated quotient and Lean's `/` agree.
* A `*time.Location` is modelled as a zone with one fixed offset from UTC,
  which is what `Asia/Tokyo` (the only location the program loads) has been
  for every instant since 1952.  Zones with transitions are not modelled.
* A `*time.Location` stored in a helper is not nil: the only constructor,
  `NewTimeStringHelper`, panics before it could store a nil one.
* Calls that can panic (`Time.In`, `NewTimeStringHelper`, `GetCostInfo`)
  return an `Outcome`: the value, or the panic.
-/

namespace BillingNotification

/-! ## Package `time`: calendar constants -/

def secondsPerMinute : Int := 60
def secondsPerHour : Int := 60 * secondsPerMinute
def secondsPerDay : Int := 24 * secondsPerHour
def daysPer400Years : Int := 365 * 400 + 97
def daysPer100Years : Int := 365 * 100 + 24
def daysPer4Years : Int := 365 * 4 + 1

/-- The year of the zero of the absolute time scale used by package `time`. -/
def absoluteZeroYear : Int := -292277022399

/-- Offset `(absoluteZeroYear - internalYear) * 365.2425 * secondsPerDay`. -/
def absoluteToInternal : Int := -9223371966579724800
def internalToAbsolute : Int := -absoluteToInternal

def unixToInternal : Int :=
  (1969 * 365 + 1969 / 4 - 1969 / 100 + 1969 / 400) * secondsPerDay
def internalToUnix : Int := -unixToInternal

/-- Table `daysBefore`: the number of days in a non-leap year before month
`m + 1` begins, with an entry for `m = 12`. -/
def daysBeforeTable : List Int :=
  [0, 31, 59, 90, 120, 151, 181, 212, 243, 273, 304, 334, 365]

/-- Indexing `daysBefore[i]`. -/
def daysBefore (i : Int) : Int := daysBeforeTable.getD i.toNat 0

/-- Go `isLeap`. -/
def isLeap (year : Int) : Bool :=
  year % 4 == 0 && (year % 100 != 0 || year % 400 == 0)

/-- Go `norm`: `nhi, nlo` with `hi * base + lo == nhi * base + nlo` and
`0 <= nlo < base`. -/
def norm (hi lo base : Int) : Int × Int :=
  let (hi, lo) :=
    if lo < 0 then
      let n := (-lo - 1) / base + 1
      (hi - n, lo + n * base)
    else (hi, lo)
  if lo ≥ base then
    let n := lo / base
    (hi + n, lo - n * base)
  else (hi, lo)

/-- Go `daysSinceEpoch`: days from the absolute epoch to the start of `year`. -/
def daysSinceEpoch (year : Int) : Int :=
  let y := year - absoluteZeroYear
  -- Add in days from 400-year cycles.
  let n := y / 400
  let y := y - 400 * n
  let d := daysPer400Years * n
  -- Add in 100-year cycles.
  let n := y / 100
  let y := y - 100 * n
  let d := d + daysPer100Years * n
  -- Add in 4-year cycles.
  let n := y / 4
  let y := y - 4 * n
  let d := d + daysPer4Years * n
  -- Add in non-leap years.
  let n := y
  d + 365 * n

/-- First half of Go `absDate`: the year and the zero-based day of the year of
an absolute day count (what `absDate (abs, false)` returns). -/
def absYearDay (d : Int) : Int × Int :=
  -- Account for 400 year cycles.
  let n := d / daysPer400Years
  let y := 400 * n
  let d := d - daysPer400Years * n
  -- Cut off 100-year cycles; the last cycle has one extra leap year.
  let n := d / daysPer100Years
  let n := n - n / 4
  let y := y + 100 * n
  let d := d - daysPer100Years * n
  -- Cut off 4-year cycles.
  let n := d / daysPer4Years
  let y := y + 4 * n
  let d := d - daysPer4Years * n
  -- Cut off years within a 4-year cycle.
  let n := d / 365
  let n := n - n / 4
  let y := y + n
  let d := d - 365 * n
  (y + absoluteZeroYear, d)

/-- Second half of Go `absDate`: month and day of the month from the year and
the zero-based day of the year. -/
def yearDayToMonthDay (year yday : Int) : Int × Int :=
  let day := yday
  if isLeap year && day == 31 + 29 - 1 then
    -- Leap day.
    (2, 29)
  else
    -- After leap day; pretend it was not there.
    let day := if isLeap year && day > 31 + 29 - 1 then day - 1 else day
    -- Estimate month on assumption that every month has 31 days; the
    -- estimate may be too low by at most one month, so adjust.
    let month := day / 31
    let e := daysBefore (month + 1)
    let (month, begin) :=
      if day ≥ e then (month + 1, e) else (month, daysBefore month)
    (month + 1, day - begin + 1)

/-- A calendar date as package `time` reports it. -/
structure Civil where
  year : Int
  month : Int
  day : Int
deriving DecidableEq, Repr

/-- Go `absDate (abs, true)`: the calendar date of an absolute second count. -/
def absDate (abs : Int) : Civil :=
  let d := abs / secondsPerDay
  let (year, yday) := absYearDay d
  let (month, day) := yearDayToMonthDay year yday
  ⟨year, month, day⟩

/-! ## Package `time`: locations and instants -/

/-- A `time.Location` with a single zone: a name and the seconds east of UTC. -/
structure Location where
  name : String
  offset : Int
deriving DecidableEq, Repr

/-- A `time.Time`: seconds since the Unix epoch, nanoseconds within the second,
and the location the instant is presented in. -/
structure Time where
  unixSec : Int
  nsec : Int
  loc : Location
deriving DecidableEq, Repr

/-- Go `Time.abs`: the instant as an absolute second count in its location. -/
def Time.abs (t : Time) : Int :=
  t.unixSec + t.loc.offset + (unixToInternal + internalToAbsolute)

/-- Go `Time.Year`. -/
def Time.Year (t : Time) : Int := (absDate t.abs).year

/-- Go `Time.Month`. -/
def Time.Month (t : Time) : Int := (absDate t.abs).month

/-- Go `Time.Day`. -/
def Time.Day (t : Time) : Int := (absDate t.abs).day


/-- Go `time.Date`: the instant of the possibly out-of-range wall-clock reading
in `loc`; month, day, hour, min, sec and nsec are normalised. -/
def Date (year month day hour min sec nsec : Int) (loc : Location) : Time :=
  -- Normalize month, overflowing into year.
  let m := month - 1
  let (year, m) := norm year m 12
  let month := m + 1
  -- Normalize nsec, sec, min, hour, overflowing into day.
  let (sec, nsec) := norm sec nsec 1000000000
  let (min, sec) := norm min sec 60
  let (hour, min) := norm hour min 60
  let (day, hour) := norm day hour 24
  -- Compute days since the absolute epoch.
  let d := daysSinceEpoch year
  -- Add in days before this month.
  let d := d + daysBefore (month - 1)
  let d := if isLeap year && month ≥ 3 then d + 1 else d
  -- Add in days before today.
  let d := d + (day - 1)
  -- Add in time elapsed today.
  let abs := d * secondsPerDay
  let abs := abs + (hour * secondsPerHour + min * secondsPerMinute + sec)
  let unix := abs + (absoluteToInternal + internalToUnix)
  -- Adjust to UTC by the zone offset of the location.
  let offset := loc.offset
  let unix := if offset ≠ 0 then unix - offset else unix
  ⟨unix, nsec, loc⟩

/-! ## Package `time`: formatting -/

/-- The loop of Go `appendInt` that assembles the decimal digits of `u` in
reverse order in front of `buf`.  Go runs it until `u < 10`; the fuel bounds
the number of iterations, and `u + 1` of it is always enough. -/
def appendIntDigits : Nat → Nat → List Char → List Char
  | 0, _, buf => buf
  | fuel + 1, u, buf =>
    if u ≥ 10 then
      let q := u / 10
      appendIntDigits fuel q (Char.ofNat (48 + (u - q * 10)) :: buf)
    else
      Char.ofNat (48 + u) :: buf

/-- Go `appendInt`: `x` in decimal, zero-padded to `width`, appended to `b`. -/
def appendInt (b : List Char) (x : Int) (width : Nat) : List Char :=
  let b := if x < 0 then b ++ ['-'] else b
  let u := x.natAbs
  let buf := appendIntDigits (u + 1) u []
  b ++ List.replicate (width - buf.length) '0' ++ buf

/-- The layout interpreter of Go `Time.Format`, for the chunks that occur in
date layouts: `2006` (year), `01` (zero-padded month), `02` (zero-padded day);
any other character is copied. -/
def appendFormat (c : Civil) : List Char → List Char → List Char
  | b, '2' :: '0' :: '0' :: '6' :: rest => appendFormat c (appendInt b c.year 4) rest
  | b, '0' :: '1' :: rest => appendFormat c (appendInt b c.month 2) rest
  | b, '0' :: '2' :: rest => appendFormat c (appendInt b c.day 2) rest
  | b, ch :: rest => appendFormat c (b ++ [ch]) rest
  | b, [] => b

/-- The text Go `Time.Format` produces for an instant whose calendar date in
its location is `c`. -/
def Civil.Format (c : Civil) (layout : String) : String :=
  String.mk (appendFormat c [] layout.toList)

/-- Go `Time.Format`. -/
def Time.Format (t : Time) (layout : String) : String :=
  (absDate t.abs).Format layout

/-! ## Package `fmt` -/

/-- Go `fmt.Sprintf` for formats whose only verb is `%s` and whose operands are
strings: each `%s` is replaced by the next operand, a `%s` without an operand
by `%!s(MISSING)`. -/
def Sprintf : List Char → List String → List Char
  | '%' :: 's' :: rest, a :: args => a.toList ++ Sprintf rest args
  | '%' :: 's' :: rest, [] => "%!s(MISSING)".toList ++ Sprintf rest []
  | ch :: rest, args => ch :: Sprintf rest args
  | [], _ => []

/-! ## Package `costexplorer` -/

structure DateInterval where
  Start : String
  End : String
deriving DecidableEq, Repr

structure GetCostAndUsageInput where
  Granularity : String
  Metrics : List String
  TimePeriod : DateInterval
deriving DecidableEq, Repr

/-- A `costexplorer.MetricValue`; `none` is a nil `*string`. -/
structure MetricValue where
  Amount : Option String
  Unit : Option String
deriving DecidableEq, Repr

/-- A `costexplorer.ResultByTime`; `Total` is the map from metric name to
`*MetricValue`, a missing key reading as nil. -/
structure ResultByTime where
  Total : List (String × MetricValue)
deriving DecidableEq, Repr

structure GetCostAndUsageOutput where
  ResultsByTime : List ResultByTime
deriving DecidableEq, Repr

/-! ## The program -/

def DateLayout : String := "2006-01-02"

structure CostInfo where
  Start : String
  End : String
  Amount : String
deriving DecidableEq, Repr

structure SlackMessage where
  Text : String
  Mrkdwn : Bool
deriving DecidableEq, Repr

structure TimeStringHelper where
  Location : Location
  Now : Time
deriving DecidableEq, Repr

/-- The outcome of a Go call that either returns or panics with a message. -/
abbrev Outcome (α : Type) := Except String α

/-- Go `Time.In`: the same instant presented in `loc`; it panics when `loc` is
nil (`none`). -/
def Time.In (t : Time) (loc : Option Location) : Outcome Time :=
  match loc with
  | none => Except.error "time: missing Location in call to Time.In"
  | some l => Except.ok { t with loc := l }

/-- `NewTimeStringHelper`.  `loadLocation` is `time.LoadLocation`, which
answers with a location or with an error and a nil location; `now` is the
value of `time.Now ()`.  The program discards the error and keeps the pointer.
When `In` returns, the location stored in the helper is the one of `Now`. -/
def NewTimeStringHelper (loadLocation : String → Except String Location) (now : Time)
    (locationName : String) : Outcome TimeStringHelper :=
  let location : Option Location := (loadLocation locationName).toOption
  match now.In location with
  | Except.error message => Except.error message
  | Except.ok t => Except.ok { Location := t.loc, Now := t }

def TimeStringHelper.GetBeginningOfLastMonth (helper : TimeStringHelper) : String :=
  (Date helper.Now.Year (helper.Now.Month - 1) 1 0 0 0 0 helper.Location).Format DateLayout

def TimeStringHelper.GetBeginningOfMonth (helper : TimeStringHelper) : String :=
  (Date helper.Now.Year helper.Now.Month 1 0 0 0 0 helper.Location).Format DateLayout

def TimeStringHelper.GetYesterday (helper : TimeStringHelper) : String :=
  (Date helper.Now.Year helper.Now.Month (helper.Now.Day - 1) 0 0 0 0
    helper.Location).Format DateLayout

def TimeStringHelper.GetToday (helper : TimeStringHelper) : String :=
  (Date helper.Now.Year helper.Now.Month helper.Now.Day 0 0 0 0
    helper.Location).Format DateLayout

def TimeStringHelper.IsTodayFirst (helper : TimeStringHelper) : Bool :=
  helper.Now.Day == 1

def TimeStringHelper.GetStartTimePeriod (helper : TimeStringHelper) : String :=
  if helper.IsTodayFirst then
    helper.GetBeginningOfLastMonth
  else
    helper.GetBeginningOfMonth

/-- The request `GetCostInfo` builds and sends to the cost query. -/
def costQueryInput (start end_ : String) : GetCostAndUsageInput :=
  { Granularity := "MONTHLY"
    Metrics := ["AmortizedCost"]
    TimePeriod := { Start := start, End := end_ } }

/-- `GetCostInfo`.  `getCostAndUsage` is the call to the cost-explorer client:
it answers with an output or with an error, on which the program panics.
Indexing an empty `ResultsByTime` and reading `Amount` through the nil entry
of a missing `AmortizedCost` key panic as well. -/
def GetCostInfo (getCostAndUsage : GetCostAndUsageInput → Except String GetCostAndUsageOutput)
    (helper : TimeStringHelper) : Outcome CostInfo :=
  let start := helper.GetStartTimePeriod
  let end_ := helper.GetToday
  match getCostAndUsage (costQueryInput start end_) with
  | Except.error err => Except.error err
  | Except.ok output =>
    match output.ResultsByTime with
    | [] => Except.error "runtime error: index out of range [0] with length 0"
    | result :: _ =>
      match result.Total.lookup "AmortizedCost" with
      | none => Except.error "runtime error: invalid memory address or nil pointer dereference"
      | some total =>
        let amount := total.Amount.getD ""
        Except.ok { Start := start, End := end_, Amount := amount }

def makeSlackMessage (costInfo : CostInfo) (helper : TimeStringHelper) : SlackMessage :=
  { Text := String.mk (Sprintf "*期間*: `%s ~ %s`\n*料金*: `$%s`".toList
      [costInfo.Start, helper.GetYesterday, costInfo.Amount])
    Mrkdwn := true }

/-! ## Calendar notions used to state the properties -/

/-- Days in a year. -/
def yearLength (year : Int) : Int := if isLeap year then 366 else 365

/-- Go `daysIn`: the number of days in month `m` of `year`. -/
def daysIn (m year : Int) : Int :=
  if m == 2 && isLeap year then 29 else daysBefore m - daysBefore (m - 1)

/-- The zero-based day of the year of the day `day` of month `month`, as
`time.Date` adds it up. -/
def yearDayOf (year month day : Int) : Int :=
  daysBefore (month - 1) + (if isLeap year && month ≥ 3 then 1 else 0) + (day - 1)

/-- The month is in range and the day exists in that month of that year. -/
def validDate (year month day : Int) : Prop :=
  1 ≤ month ∧ month ≤ 12 ∧ 1 ≤ day ∧ day ≤ daysIn month year

instance (year month day : Int) : Decidable (validDate year month day) := by
  unfold validDate
  exact inferInstance

/-- The absolute day count of a calendar date, as `time.Date` adds it up. -/
def absDays (year month day : Int) : Int :=
  daysSinceEpoch year + yearDayOf year month day

/-- Strictly earlier calendar date. -/
def Civil.before (a b : Civil) : Prop :=
  a.year < b.year ∨ (a.year = b.year ∧ (a.month < b.month ∨ (a.month = b.month ∧ a.day < b.day)))

/-- Calendar date that is not later. -/
def Civil.notAfter (a b : Civil) : Prop := a = b ∨ a.before b

instance (a b : Civil) : Decidable (a.before b) := by
  unfold Civil.before
  exact inferInstance

instance (a b : Civil) : Decidable (a.notAfter b) := by
  unfold Civil.notAfter
  exact inferInstance

/-- The decimal digit `k` as a character. -/
def digitChar (k : Int) : Char := Char.ofNat (48 + k.toNat)

/-- One step of reading a decimal number: the value so far and the next digit. -/
def decimalStep (acc : Nat) (ch : Char) : Nat := acc * 10 + (ch.toNat - 48)

/-- The integer a decimal numeral with an optional leading `-` stands for. -/
def parseInt : List Char → Int
  | '-' :: rest => -((List.foldl decimalStep 0 rest : Nat) : Int)
  | digits => ((List.foldl decimalStep 0 digits : Nat) : Int)

/-- The calendar date an instant has in its location: what `Year`, `Month`
and `Day` report. -/
def Time.civil (t : Time) : Civil := { year := t.Year, month := t.Month, day := t.Day }

/-- The text is the `2006-01-02` rendering of the valid calendar date `c`. -/
def denotes (text : String) (c : Civil) : Prop :=
  validDate c.year c.month c.day ∧ text = c.Format DateLayout

instance (text : String) (c : Civil) : Decidable (denotes text c) := by
  unfold denotes
  exact inferInstance

/-- The calendar day before `c` under Gregorian rules. -/
def Civil.dayBefore (c : Civil) : Civil :=
  if c.day > 1 then { year := c.year, month := c.month, day := c.day - 1 }
  else if c.month > 1 then
    { year := c.year, month := c.month - 1, day := daysIn (c.month - 1) c.year }
  else { year := c.year - 1, month := 12, day := 31 }

/-- The first day of the month before the month of `c`. -/
def Civil.firstOfLastMonth (c : Civil) : Civil :=
  if c.month > 1 then { year := c.year, month := c.month - 1, day := 1 }
  else { year := c.year - 1, month := 12, day := 1 }

/-- The first day of the month of `c`. -/
def Civil.firstOfMonth (c : Civil) : Civil := { year := c.year, month := c.month, day := 1 }

/-! ## Fixtures: the location the program loads and sample inputs -/

/-- The location `time.LoadLocation` returns for `Asia/Tokyo`: UTC+9. -/
def AsiaTokyo : Location := { name := "Asia/Tokyo", offset := 9 * 60 * 60 }

/-- The helper `NewTimeStringHelper` builds when the clock in Tokyo reads
`year-month-day hour:min`. -/
def helperAt (year month day hour min : Int) : TimeStringHelper :=
  { Location := AsiaTokyo, Now := Date year month day hour min 0 0 AsiaTokyo }

/-- A location lookup that knows `Asia/Tokyo` only. -/
def loadTokyoOnly (name : String) : Except String Location :=
  if name = "Asia/Tokyo" then Except.ok AsiaTokyo
  else Except.error ("unknown time zone " ++ name)

/-- A cost query that succeeds with one result of 12.34 USD. -/
def sampleCostAndUsage (_ : GetCostAndUsageInput) : Except String GetCostAndUsageOutput :=
  Except.ok { ResultsByTime :=
    [{ Total := [("AmortizedCost", { Amount := some "12.34", Unit := some "USD" })] }] }

/-! ## Calendar arithmetic of package `time` -/

theorem isLeap_iff (y : Int) :
    isLeap y = true ↔ (y % 4 = 0 ∧ (y % 100 ≠ 0 ∨ y % 400 = 0)) := by
  simp [isLeap]

theorem daysSinceEpoch_decomp (a n1 n2 n3 : Int) (h1 : 0 ≤ n1 ∧ n1 ≤ 3)
    (h2 : 0 ≤ n2 ∧ n2 ≤ 24) (h3 : 0 ≤ n3 ∧ n3 ≤ 3) :
    daysSinceEpoch (400 * a + 100 * n1 + 4 * n2 + n3 + absoluteZeroYear)
      = 146097 * a + 36524 * n1 + 1461 * n2 + 365 * n3 := by
  simp only [daysSinceEpoch, daysPer400Years, daysPer100Years, daysPer4Years]
  have e0 : 400 * a + 100 * n1 + 4 * n2 + n3 + absoluteZeroYear - absoluteZeroYear
      = 400 * a + 100 * n1 + 4 * n2 + n3 := by omega
  rw [e0]
  have e1 : (400 * a + 100 * n1 + 4 * n2 + n3) / 400 = a := by omega
  rw [e1]
  have e2 : (400 * a + 100 * n1 + 4 * n2 + n3 - 400 * a) / 100 = n1 := by omega
  rw [e2]
  have e3 : (400 * a + 100 * n1 + 4 * n2 + n3 - 400 * a - 100 * n1) / 4 = n2 := by omega
  rw [e3]
  omega

theorem isLeap_decomp (a n1 n2 n3 : Int) (h1 : 0 ≤ n1 ∧ n1 ≤ 3)
    (h2 : 0 ≤ n2 ∧ n2 ≤ 24) (h3 : 0 ≤ n3 ∧ n3 ≤ 3) :
    isLeap (400 * a + 100 * n1 + 4 * n2 + n3 + absoluteZeroYear) = true
      ↔ (n3 = 3 ∧ (n2 ≠ 24 ∨ n1 = 3)) := by
  rw [isLeap_iff]
  simp only [absoluteZeroYear]
  omega

theorem absYearDay_decomp (d : Int) :
    ∃ a n1 n2 n3 r : Int, (0 ≤ n1 ∧ n1 ≤ 3) ∧ (0 ≤ n2 ∧ n2 ≤ 24) ∧ (0 ≤ n3 ∧ n3 ≤ 3) ∧
      0 ≤ r ∧ r < (if n3 = 3 ∧ (n2 ≠ 24 ∨ n1 = 3) then 366 else 365) ∧
      d = 146097 * a + 36524 * n1 + 1461 * n2 + 365 * n3 + r ∧
      absYearDay d = (400 * a + 100 * n1 + 4 * n2 + n3 + absoluteZeroYear, r) := by
  simp only [absYearDay, daysPer400Years, daysPer100Years, daysPer4Years, Int.reduceMul,
    Int.reduceAdd]
  generalize ha : d / 146097 = a
  have ha1 : 146097 * a ≤ d ∧ d < 146097 * a + 146097 := by omega
  clear ha
  generalize hr1 : d - 146097 * a = r1
  have hr1b : 0 ≤ r1 ∧ r1 < 146097 := by omega
  generalize hb : r1 / 36524 = b
  have hb1 : 36524 * b ≤ r1 ∧ r1 < 36524 * b + 36524 := by omega
  clear hb
  generalize hn1 : b - b / 4 = n1
  have hn1b : 0 ≤ n1 ∧ n1 ≤ 3 ∧ 36524 * n1 ≤ r1 ∧ r1 < 36524 * n1 + 36525 ∧
      (n1 ≠ 3 → r1 < 36524 * n1 + 36524) := by omega
  clear hn1 hb1 b
  generalize hr2 : r1 - 36524 * n1 = r2
  generalize hn2 : r2 / 1461 = n2
  have hn2b : 1461 * n2 ≤ r2 ∧ r2 < 1461 * n2 + 1461 := by omega
  clear hn2
  generalize hr3 : r2 - 1461 * n2 = r3
  generalize hc : r3 / 365 = c
  have hc1 : 365 * c ≤ r3 ∧ r3 < 365 * c + 365 := by omega
  clear hc
  generalize hn3 : c - c / 4 = n3
  have hn3b : 0 ≤ n3 ∧ n3 ≤ 3 ∧ 365 * n3 ≤ r3 ∧ r3 < 365 * n3 + 366 ∧
      (n3 ≠ 3 → r3 < 365 * n3 + 365) := by omega
  clear hn3 hc1 c
  refine ⟨a, n1, n2, n3, r3 - 365 * n3, by omega, by omega, by omega, by omega, ?_, by omega, rfl⟩
  split <;> omega

theorem absYearDay_spec (d : Int) :
    daysSinceEpoch (absYearDay d).1 + (absYearDay d).2 = d ∧
      0 ≤ (absYearDay d).2 ∧ (absYearDay d).2 < yearLength (absYearDay d).1 := by
  obtain ⟨a, n1, n2, n3, r, h1, h2, h3, hr0, hr1, hd, he⟩ := absYearDay_decomp d
  rw [he]
  simp only [yearLength]
  rw [daysSinceEpoch_decomp a n1 n2 n3 h1 h2 h3]
  refine ⟨by omega, hr0, ?_⟩
  by_cases hl : n3 = 3 ∧ (n2 ≠ 24 ∨ n1 = 3)
  · rw [if_pos ((isLeap_decomp a n1 n2 n3 h1 h2 h3).2 hl)]
    rw [if_pos hl] at hr1
    exact hr1
  · have hl2 : ¬ isLeap (400 * a + 100 * n1 + 4 * n2 + n3 + absoluteZeroYear) = true :=
      fun h => hl ((isLeap_decomp a n1 n2 n3 h1 h2 h3).1 h)
    rw [if_neg hl2]
    rw [if_neg hl] at hr1
    exact hr1

theorem year_decomp (y : Int) :
    ∃ a n1 n2 n3 : Int, (0 ≤ n1 ∧ n1 ≤ 3) ∧ (0 ≤ n2 ∧ n2 ≤ 24) ∧ (0 ≤ n3 ∧ n3 ≤ 3) ∧
      y = 400 * a + 100 * n1 + 4 * n2 + n3 + absoluteZeroYear := by
  refine ⟨(y - absoluteZeroYear) / 400, (y - absoluteZeroYear) % 400 / 100,
    (y - absoluteZeroYear) % 100 / 4, (y - absoluteZeroYear) % 4, ?_, ?_, ?_, ?_⟩ <;> omega

theorem absYearDay_unique (y yd : Int) (h0 : 0 ≤ yd) (h1 : yd < yearLength y) :
    absYearDay (daysSinceEpoch y + yd) = (y, yd) := by
  obtain ⟨a, n1, n2, n3, b1, b2, b3, hy⟩ := year_decomp y
  subst hy
  rw [daysSinceEpoch_decomp a n1 n2 n3 b1 b2 b3]
  have hyd : yd < 366 ∧ (¬ (n3 = 3 ∧ (n2 ≠ 24 ∨ n1 = 3)) → yd < 365) := by
    simp only [yearLength] at h1
    constructor
    · split at h1 <;> omega
    · intro hn
      have hl2 : ¬ isLeap (400 * a + 100 * n1 + 4 * n2 + n3 + absoluteZeroYear) = true :=
        fun h => hn ((isLeap_decomp a n1 n2 n3 b1 b2 b3).1 h)
      rw [if_neg hl2] at h1
      exact h1
  clear h1
  simp only [absYearDay, daysPer400Years, daysPer100Years, daysPer4Years, Int.reduceMul,
    Int.reduceAdd]
  have e1 : (146097 * a + 36524 * n1 + 1461 * n2 + 365 * n3 + yd) / 146097 = a := by omega
  rw [e1]
  have e2 : 146097 * a + 36524 * n1 + 1461 * n2 + 365 * n3 + yd - 146097 * a
      = 36524 * n1 + 1461 * n2 + 365 * n3 + yd := by omega
  rw [e2]
  have e3 : (36524 * n1 + 1461 * n2 + 365 * n3 + yd) / 36524
      - (36524 * n1 + 1461 * n2 + 365 * n3 + yd) / 36524 / 4 = n1 := by
    generalize hq : (36524 * n1 + 1461 * n2 + 365 * n3 + yd) / 36524 = q
    have hq1 : q = n1 ∨ (n1 = 3 ∧ q = 4) := by omega
    rcases hq1 with h | ⟨h, h4⟩
    · omega
    · subst h4
      omega
  rw [e3]
  have e4 : 36524 * n1 + 1461 * n2 + 365 * n3 + yd - 36524 * n1
      = 1461 * n2 + 365 * n3 + yd := by omega
  rw [e4]
  have e5 : (1461 * n2 + 365 * n3 + yd) / 1461 = n2 := by omega
  rw [e5]
  have e6 : 1461 * n2 + 365 * n3 + yd - 1461 * n2 = 365 * n3 + yd := by omega
  rw [e6]
  have e7 : (365 * n3 + yd) / 365 - (365 * n3 + yd) / 365 / 4 = n3 := by
    generalize hq : (365 * n3 + yd) / 365 = q
    have hq1 : q = n3 ∨ (n3 = 3 ∧ q = 4) := by omega
    rcases hq1 with h | ⟨h, h4⟩
    · omega
    · subst h4
      omega
  rw [e7]
  have e8 : 365 * n3 + yd - 365 * n3 = yd := by omega
  rw [e8]

theorem daysBefore_values :
    daysBefore 0 = 0 ∧ daysBefore 1 = 31 ∧ daysBefore 2 = 59 ∧ daysBefore 3 = 90 ∧
    daysBefore 4 = 120 ∧ daysBefore 5 = 151 ∧ daysBefore 6 = 181 ∧ daysBefore 7 = 212 ∧
    daysBefore 8 = 243 ∧ daysBefore 9 = 273 ∧ daysBefore 10 = 304 ∧ daysBefore 11 = 334 ∧
    daysBefore 12 = 365 := by
  decide

theorem month_cases (m : Int) (h : 1 ≤ m ∧ m ≤ 12) :
    m = 1 ∨ m = 2 ∨ m = 3 ∨ m = 4 ∨ m = 5 ∨ m = 6 ∨ m = 7 ∨ m = 8 ∨ m = 9 ∨ m = 10 ∨
      m = 11 ∨ m = 12 := by
  omega

theorem month_estimate (day m : Int) (hm : 1 ≤ m ∧ m ≤ 12)
    (h : daysBefore (m - 1) ≤ day ∧ day < daysBefore m) :
    (if day ≥ daysBefore (day / 31 + 1) then (day / 31 + 1, daysBefore (day / 31 + 1))
      else (day / 31, daysBefore (day / 31))) = (m - 1, daysBefore (m - 1)) := by
  obtain ⟨v0, v1, v2, v3, v4, v5, v6, v7, v8, v9, v10, v11, v12⟩ := daysBefore_values
  generalize hq : day / 31 = q
  have hq1 : q = 0 ∨ q = 1 ∨ q = 2 ∨ q = 3 ∨ q = 4 ∨ q = 5 ∨ q = 6 ∨ q = 7 ∨ q = 8 ∨
      q = 9 ∨ q = 10 ∨ q = 11 := by
    rcases month_cases m hm with h1 | h1 | h1 | h1 | h1 | h1 | h1 | h1 | h1 | h1 | h1 | h1 <;>
      subst h1 <;>
      simp only [Int.reduceSub, v0, v1, v2, v3, v4, v5, v6, v7, v8, v9, v10, v11, v12] at h <;>
      omega
  rcases hq1 with h2 | h2 | h2 | h2 | h2 | h2 | h2 | h2 | h2 | h2 | h2 | h2 <;>
    subst h2 <;>
    rcases month_cases m hm with h1 | h1 | h1 | h1 | h1 | h1 | h1 | h1 | h1 | h1 | h1 | h1 <;>
    subst h1 <;>
    simp only [Int.reduceAdd, Int.reduceSub, v0, v1, v2, v3, v4, v5, v6, v7, v8, v9, v10, v11,
      v12] at h ⊢ <;>
    first
      | omega
      | (split <;> first | rfl | omega)

theorem yearDayToMonthDay_eq (year yday : Int) :
    yearDayToMonthDay year yday =
      if isLeap year && yday == 31 + 29 - 1 then (2, 29)
      else
        ((if (if isLeap year && yday > 31 + 29 - 1 then yday - 1 else yday) ≥
              daysBefore ((if isLeap year && yday > 31 + 29 - 1 then yday - 1 else yday) / 31 + 1)
            then ((if isLeap year && yday > 31 + 29 - 1 then yday - 1 else yday) / 31 + 1,
              daysBefore ((if isLeap year && yday > 31 + 29 - 1 then yday - 1 else yday) / 31 + 1))
            else ((if isLeap year && yday > 31 + 29 - 1 then yday - 1 else yday) / 31,
              daysBefore ((if isLeap year && yday > 31 + 29 - 1 then yday - 1 else yday) / 31))).1
          + 1,
         (if isLeap year && yday > 31 + 29 - 1 then yday - 1 else yday) -
          (if (if isLeap year && yday > 31 + 29 - 1 then yday - 1 else yday) ≥
              daysBefore ((if isLeap year && yday > 31 + 29 - 1 then yday - 1 else yday) / 31 + 1)
            then ((if isLeap year && yday > 31 + 29 - 1 then yday - 1 else yday) / 31 + 1,
              daysBefore ((if isLeap year && yday > 31 + 29 - 1 then yday - 1 else yday) / 31 + 1))
            else ((if isLeap year && yday > 31 + 29 - 1 then yday - 1 else yday) / 31,
              daysBefore ((if isLeap year && yday > 31 + 29 - 1 then yday - 1 else yday) / 31))).2
          + 1) := by
  rfl

theorem yearDayToMonthDay_adjusted (year yday m day : Int) (hm : 1 ≤ m ∧ m ≤ 12)
    (hne : ¬ ((isLeap year && yday == 31 + 29 - 1) = true))
    (hday : (if isLeap year && yday > 31 + 29 - 1 then yday - 1 else yday) = day)
    (h : daysBefore (m - 1) ≤ day ∧ day < daysBefore m) :
    yearDayToMonthDay year yday = (m, day - daysBefore (m - 1) + 1) := by
  rw [yearDayToMonthDay_eq, if_neg hne, hday, month_estimate day m hm h]
  simp

theorem yearDayToMonthDay_yearDayOf (year m d : Int) (hv : validDate year m d) :
    yearDayToMonthDay year (yearDayOf year m d) = (m, d) := by
  obtain ⟨hm1, hm2, hd⟩ := hv
  obtain ⟨v0, v1, v2, v3, v4, v5, v6, v7, v8, v9, v10, v11, v12⟩ := daysBefore_values
  by_cases hleapday : (isLeap year && yearDayOf year m d == 31 + 29 - 1) = true
  · rw [yearDayToMonthDay_eq, if_pos hleapday]
    simp only [Bool.and_eq_true, beq_iff_eq] at hleapday
    obtain ⟨hl, hy⟩ := hleapday
    rcases month_cases m ⟨hm1, hm2⟩ with h | h | h | h | h | h | h | h | h | h | h | h <;>
      subst h <;>
      simp [daysIn, yearDayOf, hl, v0, v1, v2, v3, v4, v5, v6, v7, v8, v9, v10, v11, v12]
        at hd hy ⊢ <;>
      omega
  · have key : yearDayToMonthDay year (yearDayOf year m d)
        = (m, (yearDayOf year m d -
            (if isLeap year && m ≥ 3 then 1 else 0)) - daysBefore (m - 1) + 1) := by
      apply yearDayToMonthDay_adjusted year _ m _ ⟨hm1, hm2⟩ hleapday
      · cases hl : isLeap year <;>
        rcases month_cases m ⟨hm1, hm2⟩ with h | h | h | h | h | h | h | h | h | h | h | h <;>
          subst h <;>
          simp [daysIn, yearDayOf, hl, v0, v1, v2, v3, v4, v5, v6, v7, v8, v9, v10, v11, v12]
            at hd hleapday ⊢ <;>
          omega
      · cases hl : isLeap year <;>
        rcases month_cases m ⟨hm1, hm2⟩ with h | h | h | h | h | h | h | h | h | h | h | h <;>
          subst h <;>
          simp [daysIn, yearDayOf, hl, v0, v1, v2, v3, v4, v5, v6, v7, v8, v9, v10, v11, v12]
            at hd hleapday ⊢ <;>
          omega
    rw [key]
    simp only [yearDayOf, Prod.mk.injEq, true_and]
    omega

theorem yearDayOf_range (year m d : Int) (hv : validDate year m d) :
    0 ≤ yearDayOf year m d ∧ yearDayOf year m d < yearLength year := by
  obtain ⟨hm1, hm2, hd⟩ := hv
  obtain ⟨v0, v1, v2, v3, v4, v5, v6, v7, v8, v9, v10, v11, v12⟩ := daysBefore_values
  cases hl : isLeap year <;>
  rcases month_cases m ⟨hm1, hm2⟩ with h | h | h | h | h | h | h | h | h | h | h | h <;>
    subst h <;>
    simp [daysIn, yearDayOf, yearLength, hl, v0, v1, v2, v3, v4, v5, v6, v7, v8, v9, v10, v11,
      v12] at hd ⊢ <;>
    omega

theorem yearDayOf_surjective (year yd : Int) (h0 : 0 ≤ yd) (h1 : yd < yearLength year) :
    ∃ m d : Int, validDate year m d ∧ yearDayOf year m d = yd := by
  obtain ⟨v0, v1, v2, v3, v4, v5, v6, v7, v8, v9, v10, v11, v12⟩ := daysBefore_values
  have hm : ∃ m : Int, (1 ≤ m ∧ m ≤ 12) ∧
      daysBefore (m - 1) + (if isLeap year && m ≥ 3 then 1 else 0) ≤ yd ∧
      yd < daysBefore (m - 1) + (if isLeap year && m ≥ 3 then 1 else 0) + daysIn m year := by
    cases hl : isLeap year <;> simp only [yearLength, hl, Bool.false_eq_true, if_false, if_true] at h1
    · have hc : yd < 31 ∨ (31 ≤ yd ∧ yd < 59) ∨ (59 ≤ yd ∧ yd < 90) ∨ (90 ≤ yd ∧ yd < 120) ∨
          (120 ≤ yd ∧ yd < 151) ∨ (151 ≤ yd ∧ yd < 181) ∨ (181 ≤ yd ∧ yd < 212) ∨
          (212 ≤ yd ∧ yd < 243) ∨ (243 ≤ yd ∧ yd < 273) ∨ (273 ≤ yd ∧ yd < 304) ∨
          (304 ≤ yd ∧ yd < 334) ∨ 334 ≤ yd := by omega
      rcases hc with h | h | h | h | h | h | h | h | h | h | h | h
      · exact ⟨1, by omega, by simp [daysIn, v0, v1]; omega⟩
      · exact ⟨2, by omega, by simp [daysIn, hl, v1, v2]; omega⟩
      · exact ⟨3, by omega, by simp [daysIn, hl, v2, v3]; omega⟩
      · exact ⟨4, by omega, by simp [daysIn, hl, v3, v4]; omega⟩
      · exact ⟨5, by omega, by simp [daysIn, hl, v4, v5]; omega⟩
      · exact ⟨6, by omega, by simp [daysIn, hl, v5, v6]; omega⟩
      · exact ⟨7, by omega, by simp [daysIn, hl, v6, v7]; omega⟩
      · exact ⟨8, by omega, by simp [daysIn, hl, v7, v8]; omega⟩
      · exact ⟨9, by omega, by simp [daysIn, hl, v8, v9]; omega⟩
      · exact ⟨10, by omega, by simp [daysIn, hl, v9, v10]; omega⟩
      · exact ⟨11, by omega, by simp [daysIn, hl, v10, v11]; omega⟩
      · exact ⟨12, by omega, by simp [daysIn, hl, v11, v12]; omega⟩
    · have hc : yd < 31 ∨ (31 ≤ yd ∧ yd < 60) ∨ (60 ≤ yd ∧ yd < 91) ∨ (91 ≤ yd ∧ yd < 121) ∨
          (121 ≤ yd ∧ yd < 152) ∨ (152 ≤ yd ∧ yd < 182) ∨ (182 ≤ yd ∧ yd < 213) ∨
          (213 ≤ yd ∧ yd < 244) ∨ (244 ≤ yd ∧ yd < 274) ∨ (274 ≤ yd ∧ yd < 305) ∨
          (305 ≤ yd ∧ yd < 335) ∨ 335 ≤ yd := by omega
      rcases hc with h | h | h | h | h | h | h | h | h | h | h | h
      · exact ⟨1, by omega, by simp [daysIn, v0, v1]; omega⟩
      · exact ⟨2, by omega, by simp [daysIn, hl, v1, v2]; omega⟩
      · exact ⟨3, by omega, by simp [daysIn, hl, v2, v3]; omega⟩
      · exact ⟨4, by omega, by simp [daysIn, hl, v3, v4]; omega⟩
      · exact ⟨5, by omega, by simp [daysIn, hl, v4, v5]; omega⟩
      · exact ⟨6, by omega, by simp [daysIn, hl, v5, v6]; omega⟩
      · exact ⟨7, by omega, by simp [daysIn, hl, v6, v7]; omega⟩
      · exact ⟨8, by omega, by simp [daysIn, hl, v7, v8]; omega⟩
      · exact ⟨9, by omega, by simp [daysIn, hl, v8, v9]; omega⟩
      · exact ⟨10, by omega, by simp [daysIn, hl, v9, v10]; omega⟩
      · exact ⟨11, by omega, by simp [daysIn, hl, v10, v11]; omega⟩
      · exact ⟨12, by omega, by simp [daysIn, hl, v11, v12]; omega⟩
  obtain ⟨m, hm12, hlo, hhi⟩ := hm
  refine ⟨m, yd - (daysBefore (m - 1) + (if isLeap year && m ≥ 3 then 1 else 0)) + 1,
    ⟨hm12.1, hm12.2, by omega, by omega⟩, ?_⟩
  simp only [yearDayOf]
  omega

theorem absDate_absDays (year m d secs : Int) (hv : validDate year m d)
    (hs : 0 ≤ secs ∧ secs < 86400) :
    absDate (absDays year m d * secondsPerDay + secs) = ⟨year, m, d⟩ := by
  obtain ⟨h0, h1⟩ := yearDayOf_range year m d hv
  have hdiv : (absDays year m d * secondsPerDay + secs) / secondsPerDay = absDays year m d := by
    simp only [secondsPerDay, secondsPerHour, secondsPerMinute, Int.reduceMul]
    omega
  simp only [absDate]
  rw [hdiv]
  simp only [absDays]
  rw [absYearDay_unique year _ h0 h1]
  simp only [yearDayToMonthDay_yearDayOf year m d hv]

theorem absDate_valid (abs : Int) :
    validDate (absDate abs).year (absDate abs).month (absDate abs).day ∧
      absDays (absDate abs).year (absDate abs).month (absDate abs).day = abs / secondsPerDay := by
  obtain ⟨hsum, h0, h1⟩ := absYearDay_spec (abs / secondsPerDay)
  obtain ⟨m, d, hv, hyd⟩ := yearDayOf_surjective _ _ h0 h1
  have hmd := yearDayToMonthDay_yearDayOf _ m d hv
  rw [hyd] at hmd
  simp only [absDate, absDays]
  rw [hmd]
  exact ⟨hv, by rw [hyd]; exact hsum⟩

theorem norm_zero (x base : Int) (hb : 0 < base) : norm x 0 base = (x, 0) := by
  have h1 : ¬ ((0 : Int) < 0) := by omega
  have h2 : ¬ ((0 : Int) ≥ base) := by omega
  simp [norm, h2]

theorem norm_month (year month : Int) (hm : 1 ≤ month ∧ month ≤ 12) :
    norm year (month - 1) 12 = (year, month - 1) := by
  have h1 : ¬ (month - 1 < 0) := by omega
  have h2 : ¬ (month - 1 ≥ 12) := by omega
  simp only [norm, if_neg h1, if_neg h2]

theorem norm_month_zero (year : Int) : norm year (0 - 1) 12 = (year - 1, 11) := by
  simp [norm]

theorem Date_abs (year month day : Int) (loc : Location) (hm : 1 ≤ month ∧ month ≤ 12) :
    (Date year month day 0 0 0 0 loc).abs = absDays year month day * secondsPerDay := by
  have e : month - 1 + 1 = month := by omega
  unfold Date
  simp only [norm_month year month hm, norm_zero 0 1000000000 (by omega),
    norm_zero 0 60 (by omega), norm_zero day 24 (by omega), e, Time.abs, absDays, yearDayOf,
    internalToAbsolute, internalToUnix]
  by_cases ho : loc.offset = 0
  · by_cases hl : (isLeap year && decide (month ≥ 3)) = true
    · simp only [ho, hl, if_true, ne_eq, not_true, if_false]
      ring
    · simp only [ho, hl, if_true, ne_eq, not_true, if_false, Bool.false_eq_true]
      ring
  · by_cases hl : (isLeap year && decide (month ≥ 3)) = true
    · simp only [ho, hl, if_true, ne_eq, not_false_eq_true, if_false]
      ring
    · simp only [ho, hl, if_true, ne_eq, not_false_eq_true, if_false, Bool.false_eq_true]
      ring

theorem Date_abs_month_zero (year day : Int) (loc : Location) :
    (Date year 0 day 0 0 0 0 loc).abs = absDays (year - 1) 12 day * secondsPerDay := by
  have e : (11 : Int) + 1 = 12 := by omega
  unfold Date
  simp only [norm_month_zero year, norm_zero 0 1000000000 (by omega),
    norm_zero 0 60 (by omega), norm_zero day 24 (by omega), e, Time.abs, absDays, yearDayOf,
    internalToAbsolute, internalToUnix]
  by_cases ho : loc.offset = 0
  · by_cases hl : (isLeap (year - 1) && decide ((12 : Int) ≥ 3)) = true
    · simp only [ho, hl, if_true, ne_eq, not_true, if_false]
      ring
    · simp only [ho, hl, if_true, ne_eq, not_true, if_false, Bool.false_eq_true]
      ring
  · by_cases hl : (isLeap (year - 1) && decide ((12 : Int) ≥ 3)) = true
    · simp only [ho, hl, if_true, ne_eq, not_false_eq_true, if_false]
      ring
    · simp only [ho, hl, if_true, ne_eq, not_false_eq_true, if_false, Bool.false_eq_true]
      ring

theorem daysSinceEpoch_closed (y : Int) :
    daysSinceEpoch y = 365 * (y - absoluteZeroYear) + (y - absoluteZeroYear) / 4
      - (y - absoluteZeroYear) / 100 + (y - absoluteZeroYear) / 400 := by
  obtain ⟨a, n1, n2, n3, b1, b2, b3, hy⟩ := year_decomp y
  subst hy
  rw [daysSinceEpoch_decomp a n1 n2 n3 b1 b2 b3]
  have e0 : 400 * a + 100 * n1 + 4 * n2 + n3 + absoluteZeroYear - absoluteZeroYear
      = 400 * a + 100 * n1 + 4 * n2 + n3 := by omega
  rw [e0]
  omega

theorem daysSinceEpoch_succ (y : Int) :
    daysSinceEpoch (y + 1) = daysSinceEpoch y + yearLength y := by
  rw [daysSinceEpoch_closed, daysSinceEpoch_closed]
  simp only [yearLength, absoluteZeroYear]
  split <;> rename_i h <;> rw [isLeap_iff] at h <;> omega

/-- The day before the first of a month is the last day of the month before,
in the absolute day count `time.Date` computes. -/
theorem absDays_day_zero (year m : Int) (hm : 2 ≤ m ∧ m ≤ 12) :
    absDays year m 0 = absDays year (m - 1) (daysIn (m - 1) year) := by
  obtain ⟨v0, v1, v2, v3, v4, v5, v6, v7, v8, v9, v10, v11, v12⟩ := daysBefore_values
  have hc : m = 2 ∨ m = 3 ∨ m = 4 ∨ m = 5 ∨ m = 6 ∨ m = 7 ∨ m = 8 ∨ m = 9 ∨ m = 10 ∨
      m = 11 ∨ m = 12 := by omega
  cases hl : isLeap year <;>
  rcases hc with h | h | h | h | h | h | h | h | h | h | h <;>
    subst h <;>
    simp [absDays, yearDayOf, daysIn, hl, v0, v1, v2, v3, v4, v5, v6, v7, v8, v9, v10, v11, v12]

/-- The day before the first of January is the 31st of December of the year
before. -/
theorem absDays_january_zero (year : Int) :
    absDays year 1 0 = absDays (year - 1) 12 31 := by
  obtain ⟨v0, v1, v2, v3, v4, v5, v6, v7, v8, v9, v10, v11, v12⟩ := daysBefore_values
  have hs := daysSinceEpoch_succ (year - 1)
  have e : year - 1 + 1 = year := by omega
  rw [e] at hs
  simp only [absDays, yearDayOf, hs, yearLength]
  cases hl : isLeap (year - 1) <;> cases hl2 : isLeap year <;> simp [v0, v11] <;> omega

theorem validDate_first (year m : Int) (hm : 1 ≤ m ∧ m ≤ 12) : validDate year m 1 := by
  obtain ⟨v0, v1, v2, v3, v4, v5, v6, v7, v8, v9, v10, v11, v12⟩ := daysBefore_values
  refine ⟨hm.1, hm.2, le_refl _, ?_⟩
  cases hl : isLeap year <;>
  rcases month_cases m hm with h | h | h | h | h | h | h | h | h | h | h | h <;>
    subst h <;>
    simp [daysIn, hl, v0, v1, v2, v3, v4, v5, v6, v7, v8, v9, v10, v11, v12]

theorem validDate_last (year m : Int) (hm : 1 ≤ m ∧ m ≤ 12) :
    validDate year m (daysIn m year) := by
  have h := validDate_first year m hm
  exact ⟨hm.1, hm.2, le_trans h.2.2.1 h.2.2.2, le_refl _⟩

theorem daysIn_values (year m : Int) (hm : 1 ≤ m ∧ m ≤ 12) :
    daysIn m year =
      if m = 2 then (if isLeap year then 29 else 28)
      else if m = 4 ∨ m = 6 ∨ m = 9 ∨ m = 11 then 30 else 31 := by
  obtain ⟨v0, v1, v2, v3, v4, v5, v6, v7, v8, v9, v10, v11, v12⟩ := daysBefore_values
  cases hl : isLeap year <;>
  rcases month_cases m hm with h | h | h | h | h | h | h | h | h | h | h | h <;>
    subst h <;>
    simp [daysIn, hl, v0, v1, v2, v3, v4, v5, v6, v7, v8, v9, v10, v11, v12]

/-! ## Formatting -/

theorem appendIntDigits_mem (fuel u : Nat) (buf : List Char) (ch : Char)
    (h : ch ∈ appendIntDigits fuel u buf) :
    ch ∈ buf ∨ ∃ k : Nat, k < 10 ∧ ch = Char.ofNat (48 + k) := by
  induction fuel generalizing u buf with
  | zero => exact Or.inl h
  | succ f ih =>
    simp only [appendIntDigits] at h
    split at h
    · rcases ih _ _ h with h1 | h1
      · rcases List.mem_cons.1 h1 with h2 | h2
        · exact Or.inr ⟨u - u / 10 * 10, by omega, h2⟩
        · exact Or.inl h2
      · exact Or.inr h1
    · rcases List.mem_cons.1 h with h2 | h2
      · exact Or.inr ⟨u, by omega, h2⟩
      · exact Or.inl h2

theorem digit_ne_newline (k : Nat) (hk : k < 10) : Char.ofNat (48 + k) ≠ '\n' := by
  interval_cases k <;> decide

theorem appendInt_append (b : List Char) (x : Int) (width : Nat) :
    appendInt b x width = b ++ appendInt [] x width := by
  simp only [appendInt]
  split <;> simp

theorem appendInt_no_newline (x : Int) (width : Nat) : '\n' ∉ appendInt [] x width := by
  intro h
  simp only [appendInt, List.mem_append, List.mem_replicate] at h
  rcases h with (h | h) | h
  · split at h
    · simp at h
    · simp at h
  · exact absurd h.2 (by decide)
  · rcases appendIntDigits_mem _ _ _ _ h with h1 | ⟨k, hk, h1⟩
    · simp at h1
    · exact digit_ne_newline k hk h1.symm

theorem Format_DateLayout (c : Civil) :
    c.Format DateLayout =
      String.mk (appendInt [] c.year 4 ++ '-' :: (appendInt [] c.month 2 ++
        '-' :: appendInt [] c.day 2)) := by
  have e : c.Format DateLayout
      = String.mk (appendInt (appendInt (appendInt [] c.year 4 ++ ['-']) c.month 2 ++ ['-'])
          c.day 2) := rfl
  rw [e, appendInt_append (_ ++ ['-']) c.day 2, appendInt_append (_ ++ ['-']) c.month 2]
  simp

theorem Format_no_newline (c : Civil) : '\n' ∉ (c.Format DateLayout).toList := by
  rw [Format_DateLayout]
  simp only [String.toList, List.mem_append, List.mem_cons, not_or]
  exact ⟨appendInt_no_newline _ _, by decide, appendInt_no_newline _ _, by decide,
    appendInt_no_newline _ _⟩

theorem appendIntDigits_lt_ten (fuel u : Nat) (buf : List Char) (hu : u < 10) :
    appendIntDigits (fuel + 1) u buf = Char.ofNat (48 + u) :: buf := by
  simp only [appendIntDigits]
  rw [if_neg (by omega)]

theorem appendIntDigits_ge_ten (fuel u : Nat) (buf : List Char) (hu : 10 ≤ u) :
    appendIntDigits (fuel + 1) u buf
      = appendIntDigits fuel (u / 10) (Char.ofNat (48 + u % 10) :: buf) := by
  simp only [appendIntDigits]
  rw [if_pos (by omega)]
  have e : u - u / 10 * 10 = u % 10 := by omega
  rw [e]

/-- Two-digit fields: month and day. -/
theorem appendInt_two (x : Int) (h : 0 ≤ x ∧ x ≤ 99) :
    appendInt [] x 2 = [digitChar (x / 10), digitChar (x % 10)] := by
  obtain ⟨u, rfl⟩ := Int.eq_ofNat_of_zero_le h.1
  have hu : u ≤ 99 := by omega
  have hneg : ¬ ((u : Int) < 0) := by omega
  simp only [appendInt, if_neg hneg, Int.natAbs_ofNat, digitChar, List.nil_append]
  have e1 : ((u : Int) / 10).toNat = u / 10 := by omega
  have e2 : ((u : Int) % 10).toNat = u % 10 := by omega
  rw [e1, e2]
  by_cases h10 : u < 10
  · rw [appendIntDigits_lt_ten u u [] h10]
    have e3 : u / 10 = 0 := by omega
    have e4 : u % 10 = u := by omega
    rw [e3, e4]
    rfl
  · obtain ⟨k, rfl⟩ : ∃ k, u = k + 1 := ⟨u - 1, by omega⟩
    rw [appendIntDigits_ge_ten (k + 1) (k + 1) [] (by omega),
      appendIntDigits_lt_ten k ((k + 1) / 10) _ (by omega)]
    rfl

/-- Four-digit field: the year. -/
theorem appendInt_four (x : Int) (h : 0 ≤ x ∧ x ≤ 9999) :
    appendInt [] x 4 =
      [digitChar (x / 1000), digitChar (x / 100 % 10), digitChar (x / 10 % 10),
        digitChar (x % 10)] := by
  obtain ⟨u, rfl⟩ := Int.eq_ofNat_of_zero_le h.1
  have hu : u ≤ 9999 := by omega
  have hneg : ¬ ((u : Int) < 0) := by omega
  simp only [appendInt, if_neg hneg, Int.natAbs_ofNat, digitChar, List.nil_append]
  have e1 : ((u : Int) / 1000).toNat = u / 1000 := by omega
  have e2 : ((u : Int) / 100 % 10).toNat = u / 100 % 10 := by omega
  have e3 : ((u : Int) / 10 % 10).toNat = u / 10 % 10 := by omega
  have e4 : ((u : Int) % 10).toNat = u % 10 := by omega
  rw [e1, e2, e3, e4]
  by_cases h10 : u < 10
  · rw [appendIntDigits_lt_ten u u [] h10]
    have a1 : u / 1000 = 0 := by omega
    have a2 : u / 100 % 10 = 0 := by omega
    have a3 : u / 10 % 10 = 0 := by omega
    have a4 : u % 10 = u := by omega
    rw [a1, a2, a3, a4]
    rfl
  · obtain ⟨k, rfl⟩ : ∃ k, u = k + 1 := ⟨u - 1, by omega⟩
    rw [appendIntDigits_ge_ten (k + 1) (k + 1) [] (by omega)]
    by_cases h100 : k + 1 < 100
    · rw [appendIntDigits_lt_ten k ((k + 1) / 10) _ (by omega)]
      have a1 : (k + 1) / 1000 = 0 := by omega
      have a2 : (k + 1) / 100 % 10 = 0 := by omega
      have a3 : (k + 1) / 10 % 10 = (k + 1) / 10 := by omega
      rw [a1, a2, a3]
      rfl
    · obtain ⟨j, rfl⟩ : ∃ j, k = j + 1 := ⟨k - 1, by omega⟩
      rw [appendIntDigits_ge_ten (j + 1) ((j + 1 + 1) / 10) _ (by omega)]
      by_cases h1000 : j + 1 + 1 < 1000
      · rw [appendIntDigits_lt_ten j ((j + 1 + 1) / 10 / 10) _ (by omega)]
        have a1 : (j + 1 + 1) / 1000 = 0 := by omega
        have a2 : (j + 1 + 1) / 100 % 10 = (j + 1 + 1) / 10 / 10 := by omega
        rw [a1, a2]
        rfl
      · obtain ⟨i, rfl⟩ : ∃ i, j = i + 1 := ⟨j - 1, by omega⟩
        rw [appendIntDigits_ge_ten (i + 1) ((i + 1 + 1 + 1) / 10 / 10) _ (by omega),
          appendIntDigits_lt_ten i ((i + 1 + 1 + 1) / 10 / 10 / 10) _ (by omega)]
        have a1 : (i + 1 + 1 + 1) / 1000 = (i + 1 + 1 + 1) / 10 / 10 / 10 := by omega
        have a2 : (i + 1 + 1 + 1) / 100 % 10 = (i + 1 + 1 + 1) / 10 / 10 % 10 := by omega
        rw [a1, a2]
        rfl

theorem decimalValue_digits (fuel u : Nat) (buf : List Char) (hf : u < fuel) :
    List.foldl decimalStep 0 (appendIntDigits fuel u buf) = List.foldl decimalStep u buf := by
  induction fuel generalizing u buf with
  | zero => omega
  | succ f ih =>
    by_cases h10 : u < 10
    · rw [appendIntDigits_lt_ten f u buf h10]
      simp only [List.foldl_cons, decimalStep]
      have e : (Char.ofNat (48 + u)).toNat = 48 + u := by
        interval_cases u <;> rfl
      rw [e]
      have e2 : 0 * 10 + (48 + u - 48) = u := by omega
      rw [e2]
    · rw [appendIntDigits_ge_ten f u buf (by omega), ih (u / 10) _ (by omega)]
      simp only [List.foldl_cons, decimalStep]
      have e : (Char.ofNat (48 + u % 10)).toNat = 48 + u % 10 := by
        have hlt : u % 10 < 10 := Nat.mod_lt _ (by omega)
        generalize u % 10 = r at hlt
        interval_cases r <;> rfl
      rw [e]
      have e2 : u / 10 * 10 + (48 + u % 10 - 48) = u := by omega
      rw [e2]

theorem decimalValue_zeros (k : Nat) (l : List Char) :
    List.foldl decimalStep 0 (List.replicate k '0' ++ l) = List.foldl decimalStep 0 l := by
  induction k with
  | zero => rfl
  | succ k ih =>
    rw [List.replicate_succ, List.cons_append, List.foldl_cons]
    exact ih

theorem appendIntDigits_head (fuel u : Nat) (buf : List Char) :
    ∃ k : Nat, k < 10 ∧ ∃ tl : List Char,
      appendIntDigits (fuel + 1) u buf = Char.ofNat (48 + k) :: tl := by
  induction fuel generalizing u buf with
  | zero =>
    by_cases h10 : u < 10
    · exact ⟨u, h10, buf, appendIntDigits_lt_ten 0 u buf h10⟩
    · refine ⟨u % 10, Nat.mod_lt _ (by omega), buf, ?_⟩
      rw [appendIntDigits_ge_ten 0 u buf (by omega)]
      rfl
  | succ f ih =>
    by_cases h10 : u < 10
    · exact ⟨u, h10, buf, appendIntDigits_lt_ten _ u buf h10⟩
    · rw [appendIntDigits_ge_ten _ u buf (by omega)]
      exact ih _ _

theorem digit_ne_minus (k : Nat) (hk : k < 10) : Char.ofNat (48 + k) ≠ '-' := by
  interval_cases k <;> decide

theorem parseInt_minus (rest : List Char) :
    parseInt ('-' :: rest) = -((List.foldl decimalStep 0 rest : Nat) : Int) := by
  rfl

/-- Reading back what `appendInt` wrote gives the number written. -/
theorem parseInt_appendInt (x : Int) (width : Nat) :
    parseInt (appendInt [] x width) = x := by
  obtain ⟨k, hk, tl, htl⟩ := appendIntDigits_head x.natAbs x.natAbs []
  have hval : ∀ n : Nat, List.foldl decimalStep 0
      (List.replicate n '0' ++ appendIntDigits (x.natAbs + 1) x.natAbs []) = x.natAbs := by
    intro n
    rw [decimalValue_zeros, decimalValue_digits _ _ _ (by omega)]
    rfl
  by_cases hneg : x < 0
  · simp only [appendInt, if_pos hneg, List.nil_append, List.append_assoc, List.singleton_append,
      List.cons_append]
    rw [parseInt_minus, hval]
    omega
  · simp only [appendInt, if_neg hneg, List.nil_append]
    have hne : ∀ tl2 : List Char,
        List.replicate (width - (appendIntDigits (x.natAbs + 1) x.natAbs []).length) '0' ++
          appendIntDigits (x.natAbs + 1) x.natAbs [] ≠ '-' :: tl2 := by
      intro tl2 h
      rw [htl] at h
      cases hw : width - (Char.ofNat (48 + k) :: tl).length with
      | zero =>
        rw [hw] at h
        simp only [List.replicate_zero, List.nil_append, List.cons.injEq] at h
        exact digit_ne_minus k hk h.1
      | succ n =>
        rw [hw] at h
        simp only [List.replicate_succ, List.cons_append, List.cons.injEq] at h
        exact absurd h.1 (by decide)
    have hp : ∀ l : List Char, (∀ tl2, l ≠ '-' :: tl2) →
        parseInt l = (List.foldl decimalStep 0 l : Nat) := by
      intro l hl
      unfold parseInt
      split
      · rename_i r
        exact absurd rfl (hl r)
      · rfl
    rw [hp _ hne, hval]
    omega

theorem appendInt_two_length (x : Int) (h : 0 ≤ x ∧ x ≤ 99) :
    (appendInt [] x 2).length = 2 := by
  rw [appendInt_two x h]
  rfl

/-- Two valid dates with the same `2006-01-02` rendering are the same date. -/
theorem Format_DateLayout_injective (a b : Civil) (ha : validDate a.year a.month a.day)
    (hb : validDate b.year b.month b.day) (h : a.Format DateLayout = b.Format DateLayout) :
    a = b := by
  have range : ∀ c : Civil, validDate c.year c.month c.day →
      (0 ≤ c.month ∧ c.month ≤ 99) ∧ (0 ≤ c.day ∧ c.day ≤ 99) := by
    intro c hc
    have h1 := hc.2.2.2
    rw [daysIn_values _ _ ⟨hc.1, hc.2.1⟩] at h1
    have h2 := hc.1
    have h3 := hc.2.1
    have h4 := hc.2.2.1
    refine ⟨⟨by omega, by omega⟩, by omega, ?_⟩
    split at h1
    · split at h1 <;> omega
    · split at h1 <;> omega
  obtain ⟨ram, rad⟩ := range a ha
  obtain ⟨rbm, rbd⟩ := range b hb
  rw [Format_DateLayout, Format_DateLayout] at h
  have h1 : appendInt [] a.year 4 ++ '-' :: (appendInt [] a.month 2 ++ '-' :: appendInt [] a.day 2)
      = appendInt [] b.year 4 ++ '-' :: (appendInt [] b.month 2 ++ '-' :: appendInt [] b.day 2) :=
    congrArg String.data h
  have hl : ∀ c : Civil, (0 ≤ c.month ∧ c.month ≤ 99) → (0 ≤ c.day ∧ c.day ≤ 99) →
      ('-' :: (appendInt [] c.month 2 ++ '-' :: appendInt [] c.day 2)).length = 6 := by
    intro c hm hd
    simp [appendInt_two_length c.month hm, appendInt_two_length c.day hd]
  obtain ⟨hyear, hrest⟩ := List.append_inj' h1 (by rw [hl a ram rad, hl b rbm rbd])
  have hrest2 := (List.cons.inj hrest).2
  obtain ⟨hmonth, hday⟩ := List.append_inj hrest2
    (by rw [appendInt_two_length a.month ram, appendInt_two_length b.month rbm])
  have hday2 := (List.cons.inj hday).2
  have ey := congrArg parseInt hyear
  have em := congrArg parseInt hmonth
  have ed := congrArg parseInt hday2
  rw [parseInt_appendInt, parseInt_appendInt] at ey em ed
  cases a
  cases b
  simp only [Civil.mk.injEq]
  exact ⟨ey, em, ed⟩

/-! ## The date helpers -/

theorem Format_Date (year month day : Int) (loc : Location) (layout : String)
    (hv : validDate year month day) :
    (Date year month day 0 0 0 0 loc).Format layout = (Civil.mk year month day).Format layout := by
  have h := absDate_absDays year month day 0 hv (by omega)
  rw [Int.add_zero] at h
  simp only [Time.Format]
  rw [Date_abs year month day loc ⟨hv.1, hv.2.1⟩, h]

theorem Now_valid (t : Time) : validDate t.Year t.Month t.Day :=
  (absDate_valid t.abs).1

theorem GetToday_eq (helper : TimeStringHelper) :
    helper.GetToday
      = (Civil.mk helper.Now.Year helper.Now.Month helper.Now.Day).Format DateLayout :=
  Format_Date _ _ _ _ _ (Now_valid helper.Now)

theorem GetBeginningOfMonth_eq (helper : TimeStringHelper) :
    helper.GetBeginningOfMonth
      = (Civil.mk helper.Now.Year helper.Now.Month 1).Format DateLayout := by
  have hv := Now_valid helper.Now
  exact Format_Date _ _ _ _ _ (validDate_first _ _ ⟨hv.1, hv.2.1⟩)

theorem GetBeginningOfLastMonth_eq (helper : TimeStringHelper) (hm : 1 < helper.Now.Month) :
    helper.GetBeginningOfLastMonth
      = (Civil.mk helper.Now.Year (helper.Now.Month - 1) 1).Format DateLayout := by
  have hv := Now_valid helper.Now
  exact Format_Date _ _ _ _ _ (validDate_first _ _ ⟨by omega, by have := hv.2.1; omega⟩)

theorem GetBeginningOfLastMonth_january (helper : TimeStringHelper)
    (hm : helper.Now.Month = 1) :
    helper.GetBeginningOfLastMonth
      = (Civil.mk (helper.Now.Year - 1) 12 1).Format DateLayout := by
  have hv : validDate (helper.Now.Year - 1) 12 1 := validDate_first _ _ ⟨by omega, by omega⟩
  have h := absDate_absDays (helper.Now.Year - 1) 12 1 0 hv (by omega)
  rw [Int.add_zero] at h
  simp only [TimeStringHelper.GetBeginningOfLastMonth, Time.Format, hm, Int.sub_self]
  rw [Date_abs_month_zero, h]

theorem GetYesterday_same_month (helper : TimeStringHelper) (hd : 1 < helper.Now.Day) :
    helper.GetYesterday
      = (Civil.mk helper.Now.Year helper.Now.Month (helper.Now.Day - 1)).Format DateLayout := by
  have hv := Now_valid helper.Now
  exact Format_Date _ _ _ _ _ ⟨hv.1, hv.2.1, by omega, by have := hv.2.2.2; omega⟩

theorem GetYesterday_previous_month (helper : TimeStringHelper) (hd : helper.Now.Day = 1)
    (hm : 1 < helper.Now.Month) :
    helper.GetYesterday
      = (Civil.mk helper.Now.Year (helper.Now.Month - 1)
          (daysIn (helper.Now.Month - 1) helper.Now.Year)).Format DateLayout := by
  have hv := Now_valid helper.Now
  have hm2 : 1 ≤ helper.Now.Month - 1 ∧ helper.Now.Month - 1 ≤ 12 := by
    have := hv.2.1
    omega
  have h := absDate_absDays helper.Now.Year (helper.Now.Month - 1)
    (daysIn (helper.Now.Month - 1) helper.Now.Year) 0 (validDate_last _ _ hm2) (by omega)
  rw [Int.add_zero] at h
  simp only [TimeStringHelper.GetYesterday, Time.Format, hd, Int.sub_self]
  rw [Date_abs _ _ _ _ ⟨hv.1, hv.2.1⟩,
    absDays_day_zero _ _ ⟨by omega, hv.2.1⟩, h]

theorem GetYesterday_previous_year (helper : TimeStringHelper) (hd : helper.Now.Day = 1)
    (hm : helper.Now.Month = 1) :
    helper.GetYesterday = (Civil.mk (helper.Now.Year - 1) 12 31).Format DateLayout := by
  have hv : validDate (helper.Now.Year - 1) 12 31 := by
    have h := validDate_last (helper.Now.Year - 1) 12 ⟨by omega, by omega⟩
    rw [daysIn_values _ _ ⟨by omega, by omega⟩] at h
    simpa using h
  have h := absDate_absDays (helper.Now.Year - 1) 12 31 0 hv (by omega)
  rw [Int.add_zero] at h
  simp only [TimeStringHelper.GetYesterday, Time.Format, hd, hm, Int.sub_self]
  rw [Date_abs _ _ _ _ ⟨by omega, by omega⟩, absDays_january_zero, h]

theorem GetStartTimePeriod_first (helper : TimeStringHelper) (hd : helper.Now.Day = 1) :
    helper.GetStartTimePeriod = helper.GetBeginningOfLastMonth := by
  simp [TimeStringHelper.GetStartTimePeriod, TimeStringHelper.IsTodayFirst, hd]

theorem GetStartTimePeriod_later (helper : TimeStringHelper) (hd : helper.Now.Day ≠ 1) :
    helper.GetStartTimePeriod = helper.GetBeginningOfMonth := by
  simp [TimeStringHelper.GetStartTimePeriod, TimeStringHelper.IsTodayFirst, hd]

theorem civil_valid (t : Time) : validDate t.civil.year t.civil.month t.civil.day :=
  Now_valid t

theorem validDate_december_31 (year : Int) : validDate year 12 31 := by
  have h := validDate_last year 12 ⟨by omega, by omega⟩
  rw [daysIn_values _ _ ⟨by omega, by omega⟩] at h
  simpa using h

theorem dayBefore_valid (c : Civil) (hc : validDate c.year c.month c.day) :
    validDate c.dayBefore.year c.dayBefore.month c.dayBefore.day := by
  unfold Civil.dayBefore
  split
  · exact ⟨hc.1, hc.2.1, by show 1 ≤ c.day - 1; omega,
      by show c.day - 1 ≤ daysIn c.month c.year; have := hc.2.2.2; omega⟩
  · split
    · exact validDate_last c.year (c.month - 1) ⟨by omega, by have := hc.2.1; omega⟩
    · exact validDate_december_31 _

theorem firstOfLastMonth_valid (c : Civil) (hc : validDate c.year c.month c.day) :
    validDate c.firstOfLastMonth.year c.firstOfLastMonth.month c.firstOfLastMonth.day := by
  unfold Civil.firstOfLastMonth
  split
  · exact validDate_first c.year (c.month - 1) ⟨by omega, by have := hc.2.1; omega⟩
  · exact validDate_first (c.year - 1) 12 ⟨by omega, by omega⟩

theorem GetToday_denotes (helper : TimeStringHelper) :
    denotes helper.GetToday helper.Now.civil :=
  ⟨civil_valid helper.Now, GetToday_eq helper⟩

theorem GetYesterday_denotes (helper : TimeStringHelper) :
    denotes helper.GetYesterday helper.Now.civil.dayBefore := by
  refine ⟨dayBefore_valid _ (civil_valid helper.Now), ?_⟩
  have hv := Now_valid helper.Now
  unfold Civil.dayBefore
  by_cases hd : helper.Now.civil.day > 1
  · rw [if_pos hd]
    exact GetYesterday_same_month helper hd
  · have hd1 : helper.Now.Day = 1 := by
      have h1 : ¬ helper.Now.Day > 1 := hd
      have := hv.2.2.1
      omega
    rw [if_neg hd]
    by_cases hm : helper.Now.civil.month > 1
    · rw [if_pos hm]
      exact GetYesterday_previous_month helper hd1 hm
    · have hm1 : helper.Now.Month = 1 := by
        have h1 : ¬ helper.Now.Month > 1 := hm
        have := hv.1
        omega
      rw [if_neg hm]
      exact GetYesterday_previous_year helper hd1 hm1

theorem GetBeginningOfMonth_denotes (helper : TimeStringHelper) :
    denotes helper.GetBeginningOfMonth helper.Now.civil.firstOfMonth := by
  have hv := Now_valid helper.Now
  exact ⟨validDate_first _ _ ⟨hv.1, hv.2.1⟩, GetBeginningOfMonth_eq helper⟩

theorem GetBeginningOfLastMonth_denotes (helper : TimeStringHelper) :
    denotes helper.GetBeginningOfLastMonth helper.Now.civil.firstOfLastMonth := by
  refine ⟨firstOfLastMonth_valid _ (civil_valid helper.Now), ?_⟩
  have hv := Now_valid helper.Now
  unfold Civil.firstOfLastMonth
  by_cases hm : helper.Now.civil.month > 1
  · rw [if_pos hm]
    exact GetBeginningOfLastMonth_eq helper hm
  · have hm1 : helper.Now.Month = 1 := by
      have h1 : ¬ helper.Now.Month > 1 := hm
      have := hv.1
      omega
    rw [if_neg hm]
    exact GetBeginningOfLastMonth_january helper hm1

theorem GetStartTimePeriod_denotes (helper : TimeStringHelper) :
    denotes helper.GetStartTimePeriod
      (if helper.Now.Day = 1 then helper.Now.civil.firstOfLastMonth
        else helper.Now.civil.firstOfMonth) := by
  by_cases hd : helper.Now.Day = 1
  · rw [if_pos hd, GetStartTimePeriod_first helper hd]
    exact GetBeginningOfLastMonth_denotes helper
  · rw [if_neg hd, GetStartTimePeriod_later helper hd]
    exact GetBeginningOfMonth_denotes helper

theorem denotes_unique (text : String) (a b : Civil) (ha : denotes text a)
    (hb : denotes text b) : a = b :=
  Format_DateLayout_injective a b ha.1 hb.1 (ha.2.symm.trans hb.2)

/-- The start of the period is the first day of the month of yesterday. -/
theorem start_firstOfMonth_dayBefore (t : Time) :
    (if t.Day = 1 then t.civil.firstOfLastMonth else t.civil.firstOfMonth)
      = t.civil.dayBefore.firstOfMonth := by
  have hv := Now_valid t
  have hd := hv.2.2.1
  have hm := hv.1
  unfold Civil.firstOfLastMonth Civil.dayBefore Civil.firstOfMonth
  by_cases h1 : t.Day = 1
  · have h2 : ¬ t.civil.day > 1 := by
      show ¬ t.Day > 1
      omega
    rw [if_pos h1, if_neg h2]
    by_cases h3 : t.civil.month > 1
    · rw [if_pos h3, if_pos h3]
    · rw [if_neg h3, if_neg h3]
  · have h2 : t.civil.day > 1 := by
      show t.Day > 1
      omega
    rw [if_neg h1, if_pos h2]

theorem firstOfMonth_notAfter (c : Civil) (hc : 1 ≤ c.day) : c.firstOfMonth.notAfter c := by
  unfold Civil.notAfter Civil.before Civil.firstOfMonth
  by_cases h : c.day = 1
  · left
    cases c
    simp only [Civil.mk.injEq, true_and]
    exact h.symm
  · right
    right
    refine ⟨rfl, Or.inr ⟨rfl, ?_⟩⟩
    show 1 < c.day
    omega

theorem dayBefore_before (c : Civil) : c.dayBefore.before c := by
  unfold Civil.dayBefore Civil.before
  split
  · right
    refine ⟨rfl, Or.inr ⟨rfl, ?_⟩⟩
    show c.day - 1 < c.day
    omega
  · split
    · right
      refine ⟨rfl, Or.inl ?_⟩
      show c.month - 1 < c.month
      omega
    · left
      show c.year - 1 < c.year
      omega

theorem notAfter_before (a b c : Civil) (hab : a.notAfter b) (hbc : b.before c) :
    a.before c := by
  rcases hab with h | h
  · rw [h]
    exact hbc
  · unfold Civil.before at h hbc ⊢
    omega

theorem GetCostInfo_query (api1 api2 : GetCostAndUsageInput → Except String GetCostAndUsageOutput)
    (helper : TimeStringHelper)
    (h : api1 (costQueryInput helper.GetStartTimePeriod helper.GetToday)
      = api2 (costQueryInput helper.GetStartTimePeriod helper.GetToday)) :
    GetCostInfo api1 helper = GetCostInfo api2 helper := by
  simp only [GetCostInfo, h]

theorem GetCostInfo_ok (api : GetCostAndUsageInput → Except String GetCostAndUsageOutput)
    (helper : TimeStringHelper) (ci : CostInfo) (h : GetCostInfo api helper = Except.ok ci) :
    ci.Start = helper.GetStartTimePeriod ∧ ci.End = helper.GetToday ∧
      ∃ out, api (costQueryInput helper.GetStartTimePeriod helper.GetToday) = Except.ok out := by
  simp only [GetCostInfo] at h
  split at h
  · exact absurd h (by simp)
  · rename_i out hout
    split at h
    · exact absurd h (by simp)
    · split at h
      · exact absurd h (by simp)
      · have e := Except.ok.inj h
        subst e
        exact ⟨rfl, rfl, out, hout⟩

/-! ## The claims -/

/-- C1: on the first day of a month `GetStartTimePeriod` returns what
`GetBeginningOfLastMonth` returns, on every later day what `GetBeginningOfMonth`
returns, and one of the two cases always applies; at 2024-06-15 12:00 in
Asia/Tokyo the result is `2024-06-01`. -/
theorem C1_GetStartTimePeriod_cases (helper : TimeStringHelper) :
    (helper.Now.Day = 1 → helper.GetStartTimePeriod = helper.GetBeginningOfLastMonth) ∧
    (helper.Now.Day > 1 → helper.GetStartTimePeriod = helper.GetBeginningOfMonth) ∧
    (helper.Now.Day = 1 ∨ helper.Now.Day > 1) ∧
    (helperAt 2024 6 15 12 0).GetStartTimePeriod = "2024-06-01" := by
  refine ⟨GetStartTimePeriod_first helper, fun h => GetStartTimePeriod_later helper (by omega),
    ?_, by decide⟩
  have hv := Now_valid helper.Now
  have := hv.2.2.1
  omega

/-- C1 at 2024-06-01 00:00 (first of the month) and at 2024-06-15 12:00 in
Asia/Tokyo. -/
theorem C1_GetStartTimePeriod_cases_witness :
    ((helperAt 2024 6 1 0 0).Now.Day = 1 ∧
      (helperAt 2024 6 1 0 0).GetStartTimePeriod
        = (helperAt 2024 6 1 0 0).GetBeginningOfLastMonth) ∧
    ((helperAt 2024 6 15 12 0).Now.Day > 1 ∧
      (helperAt 2024 6 15 12 0).GetStartTimePeriod
        = (helperAt 2024 6 15 12 0).GetBeginningOfMonth) :=
  ⟨⟨by decide, (C1_GetStartTimePeriod_cases (helperAt 2024 6 1 0 0)).1 (by decide)⟩,
    ⟨by decide, (C1_GetStartTimePeriod_cases (helperAt 2024 6 15 12 0)).2.1 (by decide)⟩⟩

/-- C2: when the calendar date of `Now` is `(y, m, d)`, `GetYesterday` returns
the `2006-01-02` rendering of the preceding calendar day: `(y, m, d - 1)` when
`d > 1`; the last day of month `m - 1` when `d = 1` and `m > 1`, that day being
28 or 29 (February, by the Gregorian leap rule), 30 or 31; `(y - 1, 12, 31)`
when `m = 1` and `d = 1`.  The date rendered is always a valid one (never day
0).  2024-03-01 gives `2024-02-29` and 2023-03-01 gives `2023-02-28`. -/
theorem C2_GetYesterday_previous_day (helper : TimeStringHelper) (y m d : Int)
    (hy : helper.Now.Year = y) (hm : helper.Now.Month = m) (hd : helper.Now.Day = d) :
    (d > 1 → helper.GetYesterday = (Civil.mk y m (d - 1)).Format DateLayout) ∧
    (d = 1 ∧ m > 1 →
      helper.GetYesterday = (Civil.mk y (m - 1) (daysIn (m - 1) y)).Format DateLayout ∧
      daysIn (m - 1) y =
        if m - 1 = 2 then (if y % 4 = 0 ∧ (y % 100 ≠ 0 ∨ y % 400 = 0) then 29 else 28)
        else if m - 1 = 4 ∨ m - 1 = 6 ∨ m - 1 = 9 ∨ m - 1 = 11 then 30 else 31) ∧
    (m = 1 ∧ d = 1 → helper.GetYesterday = (Civil.mk (y - 1) 12 31).Format DateLayout) ∧
    (∃ c : Civil, validDate c.year c.month c.day ∧ 1 ≤ c.day ∧
      helper.GetYesterday = c.Format DateLayout) ∧
    (helperAt 2024 3 1 9 0).GetYesterday = "2024-02-29" ∧
    (helperAt 2023 3 1 9 0).GetYesterday = "2023-02-28" := by
  subst hy hm hd
  have hv := Now_valid helper.Now
  have hm12 : 1 ≤ helper.Now.Month ∧ helper.Now.Month ≤ 12 := ⟨hv.1, hv.2.1⟩
  refine ⟨fun h => GetYesterday_same_month helper h, ?_, ?_, ?_, by decide, by decide⟩
  · rintro ⟨h1, hm1⟩
    refine ⟨GetYesterday_previous_month helper h1 hm1, ?_⟩
    rw [daysIn_values _ _ ⟨by omega, by omega⟩]
    by_cases hl : isLeap helper.Now.Year = true
    · have hl2 := (isLeap_iff _).1 hl
      simp only [hl, if_true, hl2.1, true_and, hl2.2]
    · have hl2 : ¬ (helper.Now.Year % 4 = 0 ∧
          (helper.Now.Year % 100 ≠ 0 ∨ helper.Now.Year % 400 = 0)) :=
        fun h => hl ((isLeap_iff _).2 h)
      simp only [hl, hl2, if_false, Bool.false_eq_true]
  · rintro ⟨hm1, h1⟩
    exact GetYesterday_previous_year helper h1 hm1
  · by_cases h1 : helper.Now.Day = 1
    · by_cases hm1 : helper.Now.Month = 1
      · refine ⟨Civil.mk (helper.Now.Year - 1) 12 31, ?_, ?_,
          GetYesterday_previous_year helper h1 hm1⟩
        · have h := validDate_last (helper.Now.Year - 1) 12 ⟨by omega, by omega⟩
          rw [daysIn_values _ _ ⟨by omega, by omega⟩] at h
          simpa using h
        · show (1 : Int) ≤ 31
          omega
      · have hv2 := validDate_last helper.Now.Year (helper.Now.Month - 1)
          ⟨by omega, by omega⟩
        exact ⟨Civil.mk helper.Now.Year (helper.Now.Month - 1)
          (daysIn (helper.Now.Month - 1) helper.Now.Year), hv2, hv2.2.2.1,
          GetYesterday_previous_month helper h1 (by omega)⟩
    · have hd1 : 1 < helper.Now.Day := by
        have := hv.2.2.1
        omega
      refine ⟨Civil.mk helper.Now.Year helper.Now.Month (helper.Now.Day - 1),
        ⟨hv.1, hv.2.1, ?_, ?_⟩, ?_, GetYesterday_same_month helper hd1⟩
      · show 1 ≤ helper.Now.Day - 1
        omega
      · show helper.Now.Day - 1 ≤ daysIn helper.Now.Month helper.Now.Year
        have := hv.2.2.2
        omega
      · show 1 ≤ helper.Now.Day - 1
        omega

/-- C2 at 2024-03-01 09:00 in Asia/Tokyo: the first of March of a leap year
rolls back to the 29th of February. -/
theorem C2_GetYesterday_previous_day_witness :
    (helperAt 2024 3 1 9 0).Now.Year = 2024 ∧ (helperAt 2024 3 1 9 0).Now.Month = 3 ∧
    (helperAt 2024 3 1 9 0).Now.Day = 1 ∧
    (helperAt 2024 3 1 9 0).GetYesterday = (Civil.mk 2024 2 29).Format DateLayout :=
  ⟨by decide, by decide, by decide,
    ((C2_GetYesterday_previous_day (helperAt 2024 3 1 9 0) 2024 3 1 (by decide) (by decide)
      (by decide)).2.1 ⟨by decide, by decide⟩).1⟩

/-- C3: when the calendar date of `Now` is `(y, m, d)`, `GetBeginningOfLastMonth`
returns the `2006-01-02` rendering of the first day of the preceding month:
`(y, m - 1, 1)` when `m > 1` and `(y - 1, 12, 1)` when `m = 1`; 2024-01-15 gives
`2023-12-01`. -/
theorem C3_GetBeginningOfLastMonth_previous_month (helper : TimeStringHelper) (y m d : Int)
    (hy : helper.Now.Year = y) (hm : helper.Now.Month = m) (_ : helper.Now.Day = d) :
    (m > 1 → helper.GetBeginningOfLastMonth = (Civil.mk y (m - 1) 1).Format DateLayout) ∧
    (m = 1 → helper.GetBeginningOfLastMonth = (Civil.mk (y - 1) 12 1).Format DateLayout) ∧
    (m = 1 ∨ m > 1) ∧
    (helperAt 2024 1 15 9 0).GetBeginningOfLastMonth = "2023-12-01" := by
  subst hy hm
  have hv := Now_valid helper.Now
  exact ⟨fun h => GetBeginningOfLastMonth_eq helper h,
    fun h => GetBeginningOfLastMonth_january helper h, by have := hv.1; omega, by decide⟩

/-- C3 at 2024-01-15 09:00 in Asia/Tokyo: January rolls back to December of
2023. -/
theorem C3_GetBeginningOfLastMonth_previous_month_witness :
    (helperAt 2024 1 15 9 0).Now.Year = 2024 ∧ (helperAt 2024 1 15 9 0).Now.Month = 1 ∧
    (helperAt 2024 1 15 9 0).Now.Day = 15 ∧
    (helperAt 2024 1 15 9 0).GetBeginningOfLastMonth = (Civil.mk 2023 12 1).Format DateLayout :=
  ⟨by decide, by decide, by decide,
    (C3_GetBeginningOfLastMonth_previous_month (helperAt 2024 1 15 9 0) 2024 1 15 (by decide)
      (by decide) (by decide)).2.1 (by decide)⟩

/-- C4: the date `GetStartTimePeriod` denotes is not after the date
`GetYesterday` denotes.  On the first of a month the start is the first day of
the previous month and yesterday is that month's last day; on any other day the
start is the first day of the current month and yesterday is on or after it. -/
theorem C4_start_not_after_yesterday (helper : TimeStringHelper) :
    (∃ s e : Civil, denotes helper.GetStartTimePeriod s ∧ denotes helper.GetYesterday e) ∧
    ∀ s e : Civil, denotes helper.GetStartTimePeriod s → denotes helper.GetYesterday e →
      s.notAfter e ∧
      (helper.Now.Day = 1 →
        s = helper.Now.civil.firstOfLastMonth ∧
        e = { year := s.year, month := s.month, day := daysIn s.month s.year }) ∧
      (helper.Now.Day ≠ 1 →
        s = helper.Now.civil.firstOfMonth ∧
        e = { year := s.year, month := s.month, day := helper.Now.Day - 1 } ∧
        s.day ≤ e.day) := by
  have hs := GetStartTimePeriod_denotes helper
  have he := GetYesterday_denotes helper
  have hv := Now_valid helper.Now
  refine ⟨⟨_, _, hs, he⟩, ?_⟩
  intro s e hs2 he2
  have es := denotes_unique _ _ _ hs2 hs
  have ee := denotes_unique _ _ _ he2 he
  subst ee
  refine ⟨?_, ?_, ?_⟩
  · rw [es, start_firstOfMonth_dayBefore]
    exact firstOfMonth_notAfter _ (dayBefore_valid _ (civil_valid helper.Now)).2.2.1
  · intro h1
    rw [if_pos h1] at es
    refine ⟨es, ?_⟩
    rw [es]
    have h2 : ¬ helper.Now.civil.day > 1 := by
      show ¬ helper.Now.Day > 1
      omega
    unfold Civil.dayBefore Civil.firstOfLastMonth
    rw [if_neg h2]
    by_cases h3 : helper.Now.civil.month > 1
    · rw [if_pos h3, if_pos h3]
    · rw [if_neg h3, if_neg h3]
      have h4 : daysIn 12 (helper.Now.civil.year - 1) = 31 := by
        rw [daysIn_values _ _ ⟨by omega, by omega⟩]
        simp
      simp only [h4]
  · intro h1
    rw [if_neg h1] at es
    have h2 : helper.Now.civil.day > 1 := by
      show helper.Now.Day > 1
      have := hv.2.2.1
      omega
    refine ⟨es, ?_, ?_⟩
    · rw [es]
      unfold Civil.dayBefore Civil.firstOfMonth
      rw [if_pos h2]
      rfl
    · rw [es]
      unfold Civil.dayBefore Civil.firstOfMonth
      rw [if_pos h2]
      show (1 : Int) ≤ helper.Now.Day - 1
      have h3 : helper.Now.Day > 1 := h2
      omega

/-- C5, against the claim: at 2024-06-15 12:00 in Asia/Tokyo, with a cost query
that succeeds, the `End` field `GetCostInfo` builds is `2024-06-15`, which is
what `GetToday` returns and not what `GetYesterday` returns (`2024-06-14`). -/
theorem C5_End_is_today_counterexample :
    GetCostInfo sampleCostAndUsage (helperAt 2024 6 15 12 0)
      = Except.ok { Start := "2024-06-01", End := "2024-06-15", Amount := "12.34" } ∧
    (helperAt 2024 6 15 12 0).GetToday = "2024-06-15" ∧
    (helperAt 2024 6 15 12 0).GetYesterday = "2024-06-14" ∧
    ¬ (∀ ci : CostInfo,
        GetCostInfo sampleCostAndUsage (helperAt 2024 6 15 12 0) = Except.ok ci →
        ci.End = (helperAt 2024 6 15 12 0).GetYesterday ∧
        ci.End ≠ (helperAt 2024 6 15 12 0).GetToday) := by
  refine ⟨by rfl, by decide, by decide, ?_⟩
  intro h
  have h1 := (h { Start := "2024-06-01", End := "2024-06-15", Amount := "12.34" }
    (by rfl)).2
  exact h1 (by decide)

/-- C5, amended: for every helper and every cost query that succeeds, the `End`
field `GetCostInfo` builds is what `GetToday` returns, the reference date
itself, and that is also the `End` of the period of the only query it sends; it
denotes the day after the one `GetYesterday` denotes and is never equal to
what `GetYesterday` returns. -/
theorem C5_End_is_today
    (api : GetCostAndUsageInput → Except String GetCostAndUsageOutput)
    (helper : TimeStringHelper) (ci : CostInfo)
    (h : GetCostInfo api helper = Except.ok ci) :
    ci.End = helper.GetToday ∧
    denotes ci.End helper.Now.civil ∧
    denotes helper.GetYesterday helper.Now.civil.dayBefore ∧
    ci.End ≠ helper.GetYesterday ∧
    (∃ out, api (costQueryInput helper.GetStartTimePeriod helper.GetToday) = Except.ok out) ∧
    (costQueryInput helper.GetStartTimePeriod helper.GetToday).TimePeriod.End = ci.End := by
  obtain ⟨_, hend, hout⟩ := GetCostInfo_ok api helper ci h
  have ht := GetToday_denotes helper
  have hy := GetYesterday_denotes helper
  refine ⟨hend, by rw [hend]; exact ht, hy, ?_, hout, by rw [hend]; rfl⟩
  intro heq
  rw [hend] at heq
  have e := denotes_unique _ _ _ (heq ▸ ht) hy
  have hb := dayBefore_before helper.Now.civil
  rw [← e] at hb
  unfold Civil.before at hb
  omega

/-- C5 amended, at 2024-06-15 12:00 in Asia/Tokyo with a cost query that
succeeds. -/
theorem C5_End_is_today_witness :
    GetCostInfo sampleCostAndUsage (helperAt 2024 6 15 12 0)
      = Except.ok { Start := "2024-06-01", End := "2024-06-15", Amount := "12.34" } ∧
    (CostInfo.mk "2024-06-01" "2024-06-15" "12.34").End = (helperAt 2024 6 15 12 0).GetToday :=
  ⟨by rfl,
    (C5_End_is_today sampleCostAndUsage (helperAt 2024 6 15 12 0)
      { Start := "2024-06-01", End := "2024-06-15", Amount := "12.34" } (by rfl)).1⟩

/-- C6: for a cost info whose `Start` and `Amount` hold no newline,
`makeSlackMessage` sets `Mrkdwn` and its `Text` is two lines separated by one
newline: the first holds `Start`, then ` ~ `, then what `GetYesterday` returns
(not `End`), the second holds `$` directly followed by `Amount`; neither line
holds a newline.  At 2024-06-01 00:00 in Asia/Tokyo with `Start` taken from
`GetStartTimePeriod` the first line shows `2024-05-01 ~ 2024-05-31`. -/
theorem C6_makeSlackMessage_text (costInfo : CostInfo) (helper : TimeStringHelper)
    (hs : '\n' ∉ costInfo.Start.toList) (ha : '\n' ∉ costInfo.Amount.toList) :
    (makeSlackMessage costInfo helper).Mrkdwn = true ∧
    (∃ line1 line2 : String,
      (makeSlackMessage costInfo helper).Text = line1 ++ "\n" ++ line2 ∧
      line1 = "*期間*: `" ++ costInfo.Start ++ " ~ " ++ helper.GetYesterday ++ "`" ∧
      line2 = "*料金*: `$" ++ costInfo.Amount ++ "`" ∧
      '\n' ∉ line1.toList ∧ '\n' ∉ line2.toList) ∧
    (∀ end_ amount : String,
      (makeSlackMessage
        { Start := (helperAt 2024 6 1 0 0).GetStartTimePeriod, End := end_, Amount := amount }
        (helperAt 2024 6 1 0 0)).Text
        = "*期間*: `2024-05-01 ~ 2024-05-31`" ++ "\n" ++ ("*料金*: `$" ++ amount ++ "`")) := by
  have hy : '\n' ∉ helper.GetYesterday.toList := by
    rw [(GetYesterday_denotes helper).2]
    exact Format_no_newline _
  refine ⟨rfl, ⟨_, _, ?_, rfl, rfl, ?_, ?_⟩, ?_⟩
  · apply String.ext
    simp [makeSlackMessage, Sprintf]
  · simp only [String.toList, String.data_append, List.mem_append, not_or]
    exact ⟨⟨⟨⟨by decide, hs⟩, by decide⟩, hy⟩, by decide⟩
  · simp only [String.toList, String.data_append, List.mem_append, not_or]
    exact ⟨⟨by decide, ha⟩, by decide⟩
  · intro end_ amount
    have e1 : (helperAt 2024 6 1 0 0).GetStartTimePeriod = "2024-05-01" := by decide
    have e2 : (helperAt 2024 6 1 0 0).GetYesterday = "2024-05-31" := by decide
    apply String.ext
    simp [makeSlackMessage, Sprintf, e1, e2]

/-- C6 for the cost info of May 2024 at 2024-06-01 00:00 in Asia/Tokyo. -/
theorem C6_makeSlackMessage_text_witness :
    (makeSlackMessage { Start := "2024-05-01", End := "2024-06-01", Amount := "12.34" }
      (helperAt 2024 6 1 0 0)).Mrkdwn = true ∧
    (makeSlackMessage { Start := "2024-05-01", End := "2024-06-01", Amount := "12.34" }
      (helperAt 2024 6 1 0 0)).Text = "*期間*: `2024-05-01 ~ 2024-05-31`\n*料金*: `$12.34`" :=
  ⟨(C6_makeSlackMessage_text { Start := "2024-05-01", End := "2024-06-01", Amount := "12.34" }
      (helperAt 2024 6 1 0 0) (by decide) (by decide)).1, by decide⟩

/-- C7: when the calendar date of `Now` is `(y, m, d)` with `1 ≤ y ≤ 9999`,
`GetBeginningOfMonth` returns the ten characters `YYYY-MM-01`: the four decimal
digits of `y`, a hyphen, the two decimal digits of `m`, a hyphen, and `01`; it
is the rendering of the date `(y, m, 1)`. -/
theorem C7_GetBeginningOfMonth_text (helper : TimeStringHelper) (y m d : Int)
    (hy : helper.Now.Year = y) (hm : helper.Now.Month = m) (_ : helper.Now.Day = d)
    (hr : 1 ≤ y ∧ y ≤ 9999) :
    helper.GetBeginningOfMonth =
      String.mk [digitChar (y / 1000), digitChar (y / 100 % 10), digitChar (y / 10 % 10),
        digitChar (y % 10), '-', digitChar (m / 10), digitChar (m % 10), '-', '0', '1'] ∧
    helper.GetBeginningOfMonth.length = 10 ∧
    (0 ≤ y / 1000 ∧ y / 1000 ≤ 9) ∧ (1 ≤ m ∧ m ≤ 12) ∧
    denotes helper.GetBeginningOfMonth { year := y, month := m, day := 1 } := by
  subst hy hm
  have hv := Now_valid helper.Now
  have hden := GetBeginningOfMonth_denotes helper
  have e : helper.GetBeginningOfMonth =
      String.mk [digitChar (helper.Now.Year / 1000), digitChar (helper.Now.Year / 100 % 10),
        digitChar (helper.Now.Year / 10 % 10), digitChar (helper.Now.Year % 10), '-',
        digitChar (helper.Now.Month / 10), digitChar (helper.Now.Month % 10), '-', '0', '1'] := by
    rw [GetBeginningOfMonth_eq, Format_DateLayout]
    simp only []
    rw [appendInt_four _ ⟨by omega, hr.2⟩,
      appendInt_two helper.Now.Month ⟨by have := hv.1; omega, by have := hv.2.1; omega⟩]
    rfl
  refine ⟨e, ?_, ⟨by omega, by omega⟩, ⟨hv.1, hv.2.1⟩, hden⟩
  rw [e]
  rfl

/-- C7 at 2024-06-15 12:00 in Asia/Tokyo: `2024-06-01`. -/
theorem C7_GetBeginningOfMonth_text_witness :
    (helperAt 2024 6 15 12 0).Now.Year = 2024 ∧ (helperAt 2024 6 15 12 0).Now.Month = 6 ∧
    (helperAt 2024 6 15 12 0).Now.Day = 15 ∧
    (helperAt 2024 6 15 12 0).GetBeginningOfMonth =
      String.mk [digitChar (2024 / 1000), digitChar (2024 / 100 % 10),
        digitChar (2024 / 10 % 10), digitChar (2024 % 10), '-', digitChar (6 / 10),
        digitChar (6 % 10), '-', '0', '1'] ∧
    (helperAt 2024 6 15 12 0).GetBeginningOfMonth = "2024-06-01" :=
  ⟨by decide, by decide, by decide,
    (C7_GetBeginningOfMonth_text (helperAt 2024 6 15 12 0) 2024 6 15 (by decide) (by decide)
      (by decide) (by decide)).1, by decide⟩

/-- C8: when the location lookup rejects the identifier with an error,
`NewTimeStringHelper` returns no helper at all, whatever the clock reads: the
call panics, so no helper with some other, default timezone comes out of it.
A lookup that succeeds gives a helper in exactly the location looked up. -/
theorem C8_NewTimeStringHelper_rejected (loadLocation : String → Except String Location)
    (now : Time) (locationName err : String)
    (h : loadLocation locationName = Except.error err) :
    (∀ helper : TimeStringHelper,
      NewTimeStringHelper loadLocation now locationName ≠ Except.ok helper) ∧
    (∃ message : String,
      NewTimeStringHelper loadLocation now locationName = Except.error message) ∧
    (∀ (load : String → Except String Location) (loc : Location) (helper : TimeStringHelper),
      load locationName = Except.ok loc →
      NewTimeStringHelper load now locationName = Except.ok helper →
      helper.Location = loc ∧ helper.Now.loc = loc ∧ helper.Now.unixSec = now.unixSec) := by
  have e : NewTimeStringHelper loadLocation now locationName
      = Except.error "time: missing Location in call to Time.In" := by
    simp only [NewTimeStringHelper, h, Except.toOption, Time.In]
  refine ⟨fun helper heq => ?_, ⟨_, e⟩, ?_⟩
  · rw [e] at heq
    cases heq
  · intro load loc helper hl hh
    simp only [NewTimeStringHelper, hl, Except.toOption, Time.In] at hh
    have e2 := Except.ok.inj hh
    subst e2
    exact ⟨rfl, rfl, rfl⟩

/-- C8 for the identifier `Asia/Tokio` with a lookup that knows `Asia/Tokyo`
only. -/
theorem C8_NewTimeStringHelper_rejected_witness :
    loadTokyoOnly "Asia/Tokio" = Except.error "unknown time zone Asia/Tokio" ∧
    ∀ helper : TimeStringHelper,
      NewTimeStringHelper loadTokyoOnly (Date 2024 6 15 3 0 0 0 AsiaTokyo) "Asia/Tokio"
        ≠ Except.ok helper :=
  ⟨by rfl,
    (C8_NewTimeStringHelper_rejected loadTokyoOnly (Date 2024 6 15 3 0 0 0 AsiaTokyo)
      "Asia/Tokio" "unknown time zone Asia/Tokio" (by rfl)).1⟩

/-- C9: the date `GetStartTimePeriod` denotes is strictly earlier than the date
`GetToday` denotes, so the range `GetCostInfo` sends to the cost query (its
only query, with exactly these two strings as `Start` and `End`) is not empty;
on 2024-01-01 the range runs from `2023-12-01` to `2024-01-01`. -/
theorem C9_query_range_not_empty (helper : TimeStringHelper) :
    (∃ s e : Civil, denotes helper.GetStartTimePeriod s ∧ denotes helper.GetToday e) ∧
    (∀ s e : Civil, denotes helper.GetStartTimePeriod s → denotes helper.GetToday e →
      s.before e) ∧
    (∀ api1 api2 : GetCostAndUsageInput → Except String GetCostAndUsageOutput,
      api1 (costQueryInput helper.GetStartTimePeriod helper.GetToday)
        = api2 (costQueryInput helper.GetStartTimePeriod helper.GetToday) →
      GetCostInfo api1 helper = GetCostInfo api2 helper) ∧
    (costQueryInput helper.GetStartTimePeriod helper.GetToday).TimePeriod
      = { Start := helper.GetStartTimePeriod, End := helper.GetToday } ∧
    (helperAt 2024 1 1 0 0).GetStartTimePeriod = "2023-12-01" ∧
    (helperAt 2024 1 1 0 0).GetToday = "2024-01-01" := by
  have hs := GetStartTimePeriod_denotes helper
  have he := GetToday_denotes helper
  refine ⟨⟨_, _, hs, he⟩, ?_, fun api1 api2 h => GetCostInfo_query api1 api2 helper h, rfl,
    by decide, by decide⟩
  intro s e hs2 he2
  have es := denotes_unique _ _ _ hs2 hs
  have ee := denotes_unique _ _ _ he2 he
  rw [es, ee, start_firstOfMonth_dayBefore]
  exact notAfter_before _ _ _
    (firstOfMonth_notAfter _ (dayBefore_valid _ (civil_valid helper.Now)).2.2.1)
    (dayBefore_before helper.Now.civil)

/-- C10: the date `GetStartTimePeriod` denotes is the first day of the month
of the date `GetYesterday` denotes, and the two strings share everything up to
the day field: a common prefix (year, hyphen, month, hyphen) followed by `01`
in the start and by the two characters of the day in yesterday. -/
theorem C10_start_is_first_of_yesterdays_month (helper : TimeStringHelper) :
    (∃ s e : Civil, denotes helper.GetStartTimePeriod s ∧ denotes helper.GetYesterday e) ∧
    (∀ s e : Civil, denotes helper.GetStartTimePeriod s → denotes helper.GetYesterday e →
      s.year = e.year ∧ s.month = e.month ∧ s.day = 1) ∧
    (∃ (yearMonth day : List Char),
      helper.GetStartTimePeriod = String.mk (yearMonth ++ ['0', '1']) ∧
      helper.GetYesterday = String.mk (yearMonth ++ day) ∧ day.length = 2) := by
  have hs := GetStartTimePeriod_denotes helper
  have he := GetYesterday_denotes helper
  rw [start_firstOfMonth_dayBefore] at hs
  refine ⟨⟨_, _, hs, he⟩, ?_, ?_⟩
  · intro s e hs2 he2
    have es := denotes_unique _ _ _ hs2 hs
    have ee := denotes_unique _ _ _ he2 he
    rw [es, ee]
    exact ⟨rfl, rfl, rfl⟩
  · have hv := he.1
    have hday : 0 ≤ helper.Now.civil.dayBefore.day ∧ helper.Now.civil.dayBefore.day ≤ 99 := by
      have h1 := hv.2.2.2
      rw [daysIn_values _ _ ⟨hv.1, hv.2.1⟩] at h1
      have h2 := hv.2.2.1
      refine ⟨by omega, ?_⟩
      split at h1
      · split at h1 <;> omega
      · split at h1 <;> omega
    refine ⟨appendInt [] helper.Now.civil.dayBefore.year 4 ++
        '-' :: (appendInt [] helper.Now.civil.dayBefore.month 2 ++ ['-']),
      appendInt [] helper.Now.civil.dayBefore.day 2, ?_, ?_, appendInt_two_length _ hday⟩
    · rw [hs.2, Format_DateLayout]
      simp only [Civil.firstOfMonth, List.append_assoc, List.cons_append, List.nil_append]
      rfl
    · rw [he.2, Format_DateLayout]
      simp only [List.append_assoc, List.cons_append, List.nil_append]

end BillingNotification
